import Mathlib

/-!
Console server bootstrap (`src/host/srvinit.cpp`).

A shallow embedding of the routines of `srvinit.cpp` and the properties of
them that the design document states.

Conventions.
* `NTSTATUS` and `HRESULT` are signed 32-bit values, embedded as `Int`;
  `NT_SUCCESS s` is `0 ≤ s` and `FAILED hr` is `hr < 0`.
* A `WCHAR` array is embedded as the list of its bytes; the code unit at index
  `i` is made of the bytes at offsets `2 * i` and `2 * i + 1` (little endian).
* Calls that leave the file (driver, registry, threads) are inputs of the
  embedding: their results are parameters, and the calls the routine makes are
  recorded as a list of events in program order.
-/

namespace Srvinit

/-! ## Status codes -/

abbrev NTSTATUS := Int

abbrev HRESULT := Int

def STATUS_SUCCESS : NTSTATUS := 0

/-- The value `0xC0000206` as a signed 32-bit integer. -/
def STATUS_INVALID_BUFFER_SIZE : NTSTATUS := -1073741306

/-- The value `0xC0000017` as a signed 32-bit integer. -/
def STATUS_NO_MEMORY : NTSTATUS := -1073741801

def NT_SUCCESS (Status : NTSTATUS) : Bool := decide (0 ≤ Status)

def FAILED (hr : HRESULT) : Bool := decide (hr < 0)

def SUCCEEDED (hr : HRESULT) : Bool := decide (0 ≤ hr)

/-- The size of a `WCHAR` in bytes. -/
def sizeof_WCHAR : Nat := 2

def UNICODE_NULL : Nat := 0

/-! ## Connect payload and connection information -/

structure COORD where
  X : Int
  Y : Int
  deriving DecidableEq, Repr

/-- The code-unit capacities of the three `WCHAR` arrays of `CONSOLE_SERVER_MSG`
(and, by the three `ASSERT`s of `ConsoleInitializeConnectInfo`, of
`CONSOLE_API_CONNECTINFO`). The declarations are not part of `srvinit.cpp`, so
the capacities are parameters; a C array has at least one element. -/
structure MsgLayout where
  cchApplicationName : Nat
  cchTitle : Nat
  cchCurrentDirectory : Nat
  hApplicationName : 0 < cchApplicationName
  hTitle : 0 < cchTitle
  hCurrentDirectory : 0 < cchCurrentDirectory

/-- The three string buffers of the connect payload. -/
inductive StrBuf where
  | ApplicationName
  | Title
  | CurrentDirectory
  deriving DecidableEq, Repr

/-- Capacity of a buffer in code units. -/
def MsgLayout.cch (L : MsgLayout) : StrBuf → Nat
  | .ApplicationName => L.cchApplicationName
  | .Title => L.cchTitle
  | .CurrentDirectory => L.cchCurrentDirectory

/-- The value of `sizeof(buffer)`: capacity in bytes. -/
def MsgLayout.sizeof (L : MsgLayout) (b : StrBuf) : Nat := L.cch b * sizeof_WCHAR

/-- The message `CONSOLE_SERVER_MSG` as `ReadMessageInput` fills it. The string
buffers are lists of bytes; lengths are unsigned byte counts. -/
structure CONSOLE_SERVER_MSG where
  IconId : Nat
  HotKey : Nat
  StartupFlags : Nat
  FillAttribute : Nat
  ShowWindow : Nat
  ScreenBufferSize : COORD
  WindowSize : COORD
  WindowOrigin : COORD
  ProcessGroupId : Nat
  ConsoleApp : Nat
  WindowVisible : Nat
  TitleLength : Nat
  Title : List Nat
  ApplicationNameLength : Nat
  ApplicationName : List Nat
  CurrentDirectoryLength : Nat
  CurrentDirectory : List Nat
  deriving DecidableEq, Repr

def CONSOLE_SERVER_MSG.buf (Data : CONSOLE_SERVER_MSG) : StrBuf → List Nat
  | .ApplicationName => Data.ApplicationName
  | .Title => Data.Title
  | .CurrentDirectory => Data.CurrentDirectory

def CONSOLE_SERVER_MSG.len (Data : CONSOLE_SERVER_MSG) : StrBuf → Nat
  | .ApplicationName => Data.ApplicationNameLength
  | .Title => Data.TitleLength
  | .CurrentDirectory => Data.CurrentDirectoryLength

/-- The payload buffers have the size their declaration gives them. -/
def CONSOLE_SERVER_MSG.WellSized (L : MsgLayout) (Data : CONSOLE_SERVER_MSG) : Prop :=
  ∀ b : StrBuf, (Data.buf b).length = L.sizeof b

/-- The fields of the class `Settings` that `srvinit.cpp` and the design
document name. -/
structure Settings where
  HotKey : Nat
  StartupFlags : Nat
  FillAttribute : Nat
  ShowWindow : Nat
  ScreenBufferSize : COORD
  WindowSize : COORD
  WindowOrigin : COORD
  FaceName : Option (List Nat)
  LaunchFaceName : Option (List Nat)
  deriving DecidableEq, Repr

def Settings.SetHotKey (s : Settings) (v : Nat) : Settings := { s with HotKey := v }

def Settings.SetStartupFlags (s : Settings) (v : Nat) : Settings := { s with StartupFlags := v }

def Settings.SetFillAttribute (s : Settings) (v : Nat) : Settings := { s with FillAttribute := v }

def Settings.SetShowWindow (s : Settings) (v : Nat) : Settings := { s with ShowWindow := v }

def Settings.SetScreenBufferSize (s : Settings) (v : COORD) : Settings :=
  { s with ScreenBufferSize := v }

def Settings.SetWindowSize (s : Settings) (v : COORD) : Settings := { s with WindowSize := v }

def Settings.SetWindowOrigin (s : Settings) (v : COORD) : Settings := { s with WindowOrigin := v }

/-- The record `CONSOLE_API_CONNECTINFO` that receives the connection information. -/
structure CONSOLE_API_CONNECTINFO where
  ConsoleInfo : Settings
  ProcessGroupId : Nat
  ConsoleApp : Nat
  WindowVisible : Nat
  TitleLength : Nat
  Title : List Nat
  AppNameLength : Nat
  AppName : List Nat
  CurDirLength : Nat
  CurDir : List Nat
  deriving DecidableEq, Repr

/-- The call `memmove(dst, src, n)` on byte lists: the first `n` bytes of `dst`
are replaced by the first `n` bytes of `src`. -/
def memmove (dst src : List Nat) (n : Nat) : List Nat := src.take n ++ dst.drop n

/-! ## `ConsoleInitializeConnectInfo` -/

/-- One evaluation of `buffer[index]` on a payload buffer. -/
structure Access where
  buf : StrBuf
  index : Nat
  deriving DecidableEq, Repr

/-- The value of a condition together with the array reads its evaluation made. -/
abbrev Cond := Bool × List Access

/-- The operator `||`: the right operand is evaluated only when the left one is false. -/
def Cond.or (a : Cond) (b : Unit → Cond) : Cond :=
  if a.1 then a else ((b ()).1, a.2 ++ (b ()).2)

/-- A condition that reads no array. -/
def Cond.pure (v : Bool) : Cond := (v, [])

/-- The code unit `bytes[i]` of a `WCHAR` array given by its bytes. -/
def wcharAt (bytes : List Nat) (i : Nat) : Nat :=
  bytes.getD (2 * i) 0 + 256 * bytes.getD (2 * i + 1) 0

/-- The disjunct `Data.<buffer>[Data.<length> / sizeof(WCHAR)] != UNICODE_NULL`. -/
def terminatorMissing (Data : CONSOLE_SERVER_MSG) (b : StrBuf) : Cond :=
  (decide (wcharAt (Data.buf b) (Data.len b / sizeof_WCHAR) ≠ UNICODE_NULL),
    [⟨b, Data.len b / sizeof_WCHAR⟩])

/-- The disjunct `Data.<length> > (sizeof(Data.<buffer>) - sizeof(WCHAR))`. -/
def lengthTooLarge (L : MsgLayout) (Data : CONSOLE_SERVER_MSG) (b : StrBuf) : Cond :=
  Cond.pure (decide (Data.len b > L.sizeof b - sizeof_WCHAR))

/-- The condition of the `if` at lines 433-437, evaluated left to right. -/
def validationFails (L : MsgLayout) (Data : CONSOLE_SERVER_MSG) : Cond :=
  (lengthTooLarge L Data .ApplicationName).or fun _ =>
  (lengthTooLarge L Data .Title).or fun _ =>
  (lengthTooLarge L Data .CurrentDirectory).or fun _ =>
  (terminatorMissing Data .ApplicationName).or fun _ =>
  (terminatorMissing Data .Title).or fun _ =>
  terminatorMissing Data .CurrentDirectory

/-- The assignments of lines 448-464, in order. -/
def initializeConnectInfo (L : MsgLayout) (Data : CONSOLE_SERVER_MSG)
    (Cac : CONSOLE_API_CONNECTINFO) : CONSOLE_API_CONNECTINFO :=
  let Cac := { Cac with ConsoleInfo := Cac.ConsoleInfo.SetHotKey Data.HotKey }
  let Cac := { Cac with ConsoleInfo := Cac.ConsoleInfo.SetStartupFlags Data.StartupFlags }
  let Cac := { Cac with ConsoleInfo := Cac.ConsoleInfo.SetFillAttribute Data.FillAttribute }
  let Cac := { Cac with ConsoleInfo := Cac.ConsoleInfo.SetShowWindow Data.ShowWindow }
  let Cac := { Cac with ConsoleInfo := Cac.ConsoleInfo.SetScreenBufferSize Data.ScreenBufferSize }
  let Cac := { Cac with ConsoleInfo := Cac.ConsoleInfo.SetWindowSize Data.WindowSize }
  let Cac := { Cac with ConsoleInfo := Cac.ConsoleInfo.SetWindowOrigin Data.WindowOrigin }
  let Cac := { Cac with ProcessGroupId := Data.ProcessGroupId }
  let Cac := { Cac with ConsoleApp := Data.ConsoleApp }
  let Cac := { Cac with WindowVisible := Data.WindowVisible }
  let Cac := { Cac with TitleLength := Data.TitleLength }
  let Cac := { Cac with AppNameLength := Data.ApplicationNameLength }
  let Cac := { Cac with CurDirLength := Data.CurrentDirectoryLength }
  let Cac := { Cac with
    AppName := memmove Cac.AppName Data.ApplicationName (L.sizeof .ApplicationName) }
  let Cac := { Cac with Title := memmove Cac.Title Data.Title (L.sizeof .Title) }
  let Cac := { Cac with
    CurDir := memmove Cac.CurDir Data.CurrentDirectory (L.sizeof .CurrentDirectory) }
  Cac

/-- What a call of `ConsoleInitializeConnectInfo` leaves behind: the returned
status, the contents of `*Cac`, and the array reads of the validation. -/
structure ConnectResult where
  Status : NTSTATUS
  Cac : CONSOLE_API_CONNECTINFO
  reads : List Access
  deriving DecidableEq, Repr

/-- The routine `ConsoleInitializeConnectInfo`. `NTSTATUS_FROM_HRESULT` is the
conversion the file takes from a header; `ReadMessageInput` is the result of
`Message->ReadMessageInput(0, &Data, sizeof(Data))`: the `HRESULT` and the
contents of `Data` after the call. -/
def ConsoleInitializeConnectInfo (L : MsgLayout) (NTSTATUS_FROM_HRESULT : HRESULT → NTSTATUS)
    (ReadMessageInput : HRESULT × CONSOLE_SERVER_MSG) (Cac : CONSOLE_API_CONNECTINFO) :
    ConnectResult :=
  let Data := ReadMessageInput.2
  let Status := NTSTATUS_FROM_HRESULT ReadMessageInput.1
  if !NT_SUCCESS Status then
    ⟨Status, Cac, []⟩
  else
    let c := validationFails L Data
    if c.1 then
      ⟨STATUS_INVALID_BUFFER_SIZE, Cac, c.2⟩
    else
      ⟨STATUS_SUCCESS, initializeConnectInfo L Data Cac, c.2⟩

/-- An array read is inside its buffer. -/
def Access.InBounds (L : MsgLayout) (a : Access) : Prop := a.index < L.cch a.buf

/-! ### Sample inputs -/

/-- A layout with two code units per buffer. -/
def sampleLayout : MsgLayout := ⟨2, 2, 2, by decide, by decide, by decide⟩

def sampleSettings : Settings :=
  ⟨7, 7, 7, 7, ⟨7, 7⟩, ⟨7, 7⟩, ⟨7, 7⟩, none, none⟩

/-- Connection information with recognisable old contents. -/
def sampleCac : CONSOLE_API_CONNECTINFO :=
  ⟨sampleSettings, 9, 9, 9, 9, [9, 9, 9, 9], 9, [9, 9, 9, 9], 9, [9, 9, 9, 9]⟩

/-- A payload whose strings are "A", "B" and "C", all terminated. -/
def samplePayload : CONSOLE_SERVER_MSG :=
  { IconId := 1, HotKey := 2, StartupFlags := 3, FillAttribute := 4, ShowWindow := 5,
    ScreenBufferSize := ⟨80, 25⟩, WindowSize := ⟨80, 25⟩, WindowOrigin := ⟨0, 0⟩,
    ProcessGroupId := 6, ConsoleApp := 1, WindowVisible := 1,
    TitleLength := 2, Title := [66, 0, 0, 0],
    ApplicationNameLength := 2, ApplicationName := [65, 0, 0, 0],
    CurrentDirectoryLength := 2, CurrentDirectory := [67, 0, 0, 0] }

/-- The title declares four bytes, one code unit more than the buffer allows. -/
def payloadTooLong : CONSOLE_SERVER_MSG := { samplePayload with TitleLength := 4 }

/-- The current directory declares the odd length 1; the byte at offset 1 is
not zero (the code unit at index 0 is `0x4143`). -/
def payloadOddLength : CONSOLE_SERVER_MSG :=
  { samplePayload with CurrentDirectoryLength := 1, CurrentDirectory := [67, 65, 0, 0] }

/-! ## `TranslateConsoleTitle` -/

/-- The code units of a string literal `L"..."`, without the terminator. -/
def wstr (s : String) : List Nat := s.toList.map Char.toNat

/-- The string a `PCWSTR` points to. The memory behind the pointer is a list of
code units; the string ends at the first zero code unit (a list without one
stands for memory whose next code unit is the terminator). -/
def wcs (psz : List Nat) : List Nat := psz.takeWhile (· ≠ 0)

/-- The value of `MAX_PATH` in the Windows SDK. -/
def MAX_PATH : Nat := 260

/-- The value of `STRSAFE_MAX_CCH` in `strsafe.h`. -/
def STRSAFE_MAX_CCH : Nat := 2147483647

/-- The literal `SYSTEM_ROOT`, without its terminator. -/
def SYSTEM_ROOT : List Nat := wstr "%SystemRoot%"

/-- The macro `SYSTEM_ROOT_LENGTH`, `sizeof(SYSTEM_ROOT) - sizeof(WCHAR)`. -/
def SYSTEM_ROOT_LENGTH : Nat := (SYSTEM_ROOT.length + 1) * sizeof_WCHAR - sizeof_WCHAR

/-- The code unit of the backslash. -/
def BACKSLASH : Nat := 92

/-- The code unit of the underscore. -/
def UNDERSCORE : Nat := 95

/-- The function `StringCbLengthW(psz, cbMax, &cb)` of `strsafe.h`: it allows
`cbMax / sizeof(WCHAR)` code units including the terminator, and gives the
length in bytes without the terminator; `none` is a failure `HRESULT`. -/
def StringCbLengthW (psz : List Nat) (cbMax : Nat) : Option Nat :=
  let cchMax := cbMax / sizeof_WCHAR
  if cchMax > STRSAFE_MAX_CCH then none
  else if (wcs psz).length < cchMax then some ((wcs psz).length * sizeof_WCHAR)
  else none

def CSTR_LESS_THAN : Nat := 1

def CSTR_EQUAL : Nat := 2

def CSTR_GREATER_THAN : Nat := 3

/-- The function `CompareStringOrdinal` on two counted strings; with
`bIgnoreCase` the code units are compared after the upper-case mapping of the
system, which is the parameter `upcase`. -/
def CompareStringOrdinal (upcase : Nat → Nat) (bIgnoreCase : Bool) :
    List Nat → List Nat → Nat
  | [], [] => CSTR_EQUAL
  | [], _ :: _ => CSTR_LESS_THAN
  | _ :: _, [] => CSTR_GREATER_THAN
  | a :: s1, b :: s2 =>
    let x := if bIgnoreCase then upcase a else a
    let y := if bIgnoreCase then upcase b else b
    if x < y then CSTR_LESS_THAN
    else if y < x then CSTR_GREATER_THAN
    else CompareStringOrdinal upcase bIgnoreCase s1 s2

/-- A store `buffer[index] = value` to the translated title. -/
structure Store where
  index : Nat
  value : Nat
  deriving DecidableEq, Repr

/-- The stores of the copy loop of `strsafe.h` (`StringCopyWorkerW`): code units
of `src` while room is left, starting at `index`. -/
def copyStores : Nat → Nat → List Nat → List Store
  | 0, _, _ => []
  | _ + 1, _, [] => []
  | cchDest + 1, index, c :: src => ⟨index, c⟩ :: copyStores cchDest (index + 1) src

/-- The function `StringCbCopy(pszDest, cbDest, pszSrc)` of `strsafe.h`, as the
list of its stores: nothing for an invalid destination size; otherwise the copy
loop, then the terminator, which replaces the last code unit copied when the
loop filled the buffer. -/
def StringCbCopy (cbDest : Nat) (pszSrc : List Nat) : List Store :=
  let cchDest := cbDest / sizeof_WCHAR
  if cchDest = 0 ∨ cchDest > STRSAFE_MAX_CCH then []
  else
    let copied := copyStores cchDest 0 pszSrc
    copied ++ [⟨if copied.length = cchDest then cchDest - 1 else copied.length, 0⟩]

/-- What `TranslateConsoleTitle` takes from outside the file. -/
structure TitleEnv where
  /-- Whether `new wchar_t[MAX_PATH]` gave a buffer. -/
  newSysRoot : Bool
  /-- The return value of `GetWindowsDirectoryW(pwszSysRoot, MAX_PATH)` and the
  contents of `pwszSysRoot` after the call. -/
  GetWindowsDirectoryW : Nat × List Nat
  /-- The upper-case mapping `CompareStringOrdinal` uses. -/
  upcase : Nat → Nat
  /-- Whether `new BYTE[cb]` gave a buffer. -/
  newBYTE : Nat → Bool
  /-- The code unit a fresh buffer holds at an index before the first store. -/
  fresh : Nat → Nat

/-- The variables of the copy loop at lines 319-337. The two pointers are
offsets in code units: `pwszConsoleTitle` into the title, and
`pszTranslatedConsoleTitle` into the new buffer. -/
structure CopyState where
  i : Nat
  pwszConsoleTitle : Nat
  pszTranslatedConsoleTitle : Nat
  stores : List Store
  deriving DecidableEq, Repr

/-- The loop `for (UINT i = 0; i < cbConsoleTitle; i += sizeof(WCHAR))`. `i` is
a 32-bit unsigned counter. The first argument bounds the number of iterations. -/
def copyLoop (fSubstitute : Bool) (title : List Nat) (cbConsoleTitle : Nat) :
    Nat → CopyState → CopyState
  | 0, st => st
  | fuel + 1, st =>
    if st.i < cbConsoleTitle then
      let c := title.getD st.pwszConsoleTitle 0
      if fSubstitute && c == BACKSLASH then
        copyLoop fSubstitute title cbConsoleTitle fuel
          { i := (st.i + sizeof_WCHAR) % 2 ^ 32
            pwszConsoleTitle := st.pwszConsoleTitle + 1
            pszTranslatedConsoleTitle := st.pszTranslatedConsoleTitle + 1
            stores := st.stores ++ [⟨st.pszTranslatedConsoleTitle, UNDERSCORE⟩] }
      else
        let stored : CopyState :=
          { st with
            pszTranslatedConsoleTitle := st.pszTranslatedConsoleTitle + 1
            stores := st.stores ++ [⟨st.pszTranslatedConsoleTitle, c⟩] }
        if c = 0 then stored
        else
          copyLoop fSubstitute title cbConsoleTitle fuel
            { stored with
              i := (st.i + sizeof_WCHAR) % 2 ^ 32
              pwszConsoleTitle := st.pwszConsoleTitle + 1 }
    else st

/-- The buffer `TranslateConsoleTitle` returns: its size in bytes, its contents
when allocated, and the stores made to it, in program order. -/
structure TranslatedTitle where
  cbTranslatedConsoleTitle : Nat
  initial : List Nat
  stores : List Store
  deriving DecidableEq, Repr

/-- The contents of a buffer after a list of stores. -/
def applyStores (stores : List Store) (buffer : List Nat) : List Nat :=
  stores.foldl (fun b s => b.set s.index s.value) buffer

/-- The contents of the buffer after the stores. -/
def TranslatedTitle.buffer (t : TranslatedTitle) : List Nat :=
  applyStores t.stores t.initial

/-- The string the returned pointer points to. -/
def TranslatedTitle.string (t : TranslatedTitle) : List Nat := wcs t.buffer

/-- The routine `TranslateConsoleTitle`; `none` is `nullptr`. -/
def TranslateConsoleTitle (env : TitleEnv) (pwszConsoleTitle : List Nat)
    (fUnexpand fSubstitute : Bool) : Option TranslatedTitle :=
  if !env.newSysRoot then none
  else if env.GetWindowsDirectoryW.1 = 0 then none
  else
    let pwszSysRoot := env.GetWindowsDirectoryW.2
    match StringCbLengthW pwszConsoleTitle STRSAFE_MAX_CCH, StringCbLengthW pwszSysRoot MAX_PATH with
    | some cbConsoleTitle, some cbSystemRoot =>
      let cchSystemRoot := cbSystemRoot / sizeof_WCHAR
      let cchConsoleTitle := cbConsoleTitle / sizeof_WCHAR
      let cbConsoleTitle := cbConsoleTitle + sizeof_WCHAR
      let unexpand : Bool :=
        fUnexpand && decide (cchConsoleTitle ≥ cchSystemRoot) &&
          (CompareStringOrdinal env.upcase true (pwszConsoleTitle.take cchSystemRoot)
            (pwszSysRoot.take cchSystemRoot) == CSTR_EQUAL)
      let cbConsoleTitle := if unexpand then cbConsoleTitle - cbSystemRoot else cbConsoleTitle
      let offset := if unexpand then cchSystemRoot else 0
      let cbSystemRoot := if unexpand then SYSTEM_ROOT_LENGTH else 0
      let cbTranslatedConsoleTitle := cbSystemRoot + cbConsoleTitle
      if !env.newBYTE cbTranslatedConsoleTitle then none
      else
        let st := copyLoop fSubstitute pwszConsoleTitle cbConsoleTitle cbConsoleTitle
          { i := 0
            pwszConsoleTitle := offset
            pszTranslatedConsoleTitle := cbSystemRoot / sizeof_WCHAR
            stores := StringCbCopy cbTranslatedConsoleTitle SYSTEM_ROOT }
        some
          { cbTranslatedConsoleTitle := cbTranslatedConsoleTitle
            initial := (List.range (cbTranslatedConsoleTitle / sizeof_WCHAR)).map env.fresh
            stores := st.stores }
    | _, _ => none

/-- The string `TranslateConsoleTitle` returns, when it returns one. -/
def translatedString (env : TitleEnv) (pwszConsoleTitle : List Nat)
    (fUnexpand fSubstitute : Bool) : Option (List Nat) :=
  (TranslateConsoleTitle env pwszConsoleTitle fUnexpand fSubstitute).map TranslatedTitle.string

/-- The code unit the loop stores for the code unit `c` of the title. -/
def substitute (fSubstitute : Bool) (c : Nat) : Nat :=
  if fSubstitute && c == BACKSLASH then UNDERSCORE else c

/-- The substitution of the underscore for the backslash. -/
def substituteChar (c : Nat) : Nat := if c = BACKSLASH then UNDERSCORE else c

/-- The stores of the code units of a list to consecutive indices. -/
def storesAt (index : Nat) : List Nat → List Store
  | [] => []
  | c :: l => ⟨index, c⟩ :: storesAt (index + 1) l

/-- The upper-case mapping on the ASCII letters. -/
def asciiUpcase (c : Nat) : Nat := if 97 ≤ c ∧ c ≤ 122 then c - 32 else c

/-- An environment whose Windows directory is the given string. -/
def envWithRoot (root : List Nat) : TitleEnv :=
  { newSysRoot := true
    GetWindowsDirectoryW := (root.length, root ++ List.replicate (MAX_PATH - root.length) 0)
    upcase := asciiUpcase
    newBYTE := fun _ => true
    fresh := fun _ => 52685 }

/-- The Windows directory of the routine's own description. -/
def windowsRoot : List Nat := wstr "C:\\Windows"

/-- The title of the routine's own description, under `windowsRoot`. -/
def cmdTitle : List Nat := wstr "C:\\Windows\\System32\\cmd.exe"

/-- A Windows directory of 130 code units: it fits the `MAX_PATH` code units of
`pwszSysRoot` with its terminator. -/
def longRoot : List Nat := wstr "C:\\" ++ List.replicate 127 87

/-- A title under `longRoot`. -/
def longRootTitle : List Nat := longRoot ++ wstr "\\System32\\cmd.exe"

/-! ## `SetUpConsole` -/

/-- The fields of `Settings` the startup information of a process carries: those
`ConsoleInitializeConnectInfo` stores in `Cac->ConsoleInfo`. -/
inductive StartupField where
  | HotKey
  | StartupFlags
  | FillAttribute
  | ShowWindow
  | ScreenBufferSize
  | WindowSize
  | WindowOrigin
  deriving DecidableEq, Repr

/-- The value of a field. -/
inductive FieldValue where
  | scalar (v : Nat)
  | coord (c : COORD)
  deriving DecidableEq, Repr

/-- The value a configuration has in a field. -/
def Settings.get (s : Settings) : StartupField → FieldValue
  | .HotKey => .scalar s.HotKey
  | .StartupFlags => .scalar s.StartupFlags
  | .FillAttribute => .scalar s.FillAttribute
  | .ShowWindow => .scalar s.ShowWindow
  | .ScreenBufferSize => .coord s.ScreenBufferSize
  | .WindowSize => .coord s.WindowSize
  | .WindowOrigin => .coord s.WindowOrigin

def Settings.GetStartupFlags (s : Settings) : Nat := s.StartupFlags

def Settings.IsFaceNameSet (s : Settings) : Bool := s.FaceName.isSome

def Settings.GetFaceName (s : Settings) : Option (List Nat) := s.FaceName

/-- Modelled from the spec: `Settings::SetLaunchFaceName` is not in
`srvinit.cpp`. "If a face name is set, snapshot it as the launch face name for
later change detection." -/
def Settings.SetLaunchFaceName (s : Settings) (name : Option (List Nat)) : Settings :=
  { s with LaunchFaceName := name }

/-- Modelled from the spec: `Settings::ApplyStartupInfo` is not in `srvinit.cpp`.
"(P3) fields explicitly present in the process startup-info. Each layer
overlays only the fields it defines — undefined fields in a higher layer must
not clobber lower-layer values." Which fields a startup information defines is
the parameter `present`. -/
def Settings.ApplyStartupInfo (present : Settings → StartupField → Bool)
    (s pStartupSettings : Settings) : Settings :=
  { s with
    HotKey := if present pStartupSettings .HotKey then pStartupSettings.HotKey else s.HotKey
    StartupFlags :=
      if present pStartupSettings .StartupFlags then pStartupSettings.StartupFlags
      else s.StartupFlags
    FillAttribute :=
      if present pStartupSettings .FillAttribute then pStartupSettings.FillAttribute
      else s.FillAttribute
    ShowWindow :=
      if present pStartupSettings .ShowWindow then pStartupSettings.ShowWindow else s.ShowWindow
    ScreenBufferSize :=
      if present pStartupSettings .ScreenBufferSize then pStartupSettings.ScreenBufferSize
      else s.ScreenBufferSize
    WindowSize :=
      if present pStartupSettings .WindowSize then pStartupSettings.WindowSize else s.WindowSize
    WindowOrigin :=
      if present pStartupSettings .WindowOrigin then pStartupSettings.WindowOrigin
      else s.WindowOrigin }

/-- Modelled from the spec: `Settings::Validate` is not in `srvinit.cpp`. "Run a
validation pass enforcing window-size ≤ buffer-size and other documented field
ranges; on violation return ConfigError": the pass reads the merged
configuration and reports whether it holds the rules; `ranges` stands for the
other documented ranges. `SetUpConsole` calls it as a statement. -/
def Settings.Validate (ranges : Settings → Bool) (s : Settings) : Bool :=
  decide (s.WindowSize.X ≤ s.ScreenBufferSize.X) && decide (s.WindowSize.Y ≤ s.ScreenBufferSize.Y)
    && ranges s

/-- The calls `SetUpConsole` makes out of the file. The registry and link
loaders are arbitrary functions on the settings they are given; the link
loader also gives the title and its length back. -/
structure SetUpEnv where
  LoadGlobalsFromRegistry : Settings → Settings
  LoadDefaultFromRegistry : Settings → Settings
  GetSettingsFromLink :
    Settings → List Nat → Nat → List Nat → List Nat → Settings × List Nat × Nat
  IsStartupTitleIsLinkNameSet : Settings → Bool
  LoadFromRegistry : Settings → List Nat → Settings
  present : Settings → StartupField → Bool
  ranges : Settings → Bool
  /-- Whether a high DPI interface exists and, if so, the result of
  `SetProcessDpiAwarenessContext`. -/
  LocateHighDpiApi : Option Bool
  AllocateConsole : Settings → List Nat → Nat → NTSTATUS

/-- The calls of `SetUpConsole` that do not act on the settings. -/
inductive SetUpEvent where
  | Validate (holds : Bool)
  | SetProcessDpiAwarenessContext
  | SetProcessPerMonitorDpiAwareness
  | EnablePerMonitorDialogScaling
  | AllocateConsole
  deriving DecidableEq, Repr

/-- Lines 108-129 of `SetUpConsole`: the layers below the startup information,
applied to the global settings `gci`; the result is the settings, the title
and the title length. -/
def lowerLayers (env : SetUpEnv) (gci pStartupSettings : Settings) (TitleLength : Nat)
    (Title CurDir AppName : List Nat) : Settings × List Nat × Nat :=
  let settings := gci
  let settings := env.LoadGlobalsFromRegistry settings
  let settings := env.LoadDefaultFromRegistry settings
  let settings := settings.SetStartupFlags pStartupSettings.GetStartupFlags
  let link := env.GetSettingsFromLink settings Title TitleLength CurDir AppName
  let settings := link.1
  let Title := link.2.1
  let TitleLength := link.2.2
  let settings :=
    if !env.IsStartupTitleIsLinkNameSet settings then env.LoadFromRegistry settings Title
    else settings
  (settings, Title, TitleLength)

/-- What `SetUpConsole` leaves behind: the returned status, the global settings
and the other calls it made. -/
structure SetUpResult where
  Status : NTSTATUS
  settings : Settings
  events : List SetUpEvent
  deriving DecidableEq, Repr

/-- The routine `SetUpConsole`, on the global settings `gci`. -/
def SetUpConsole (env : SetUpEnv) (gci pStartupSettings : Settings) (TitleLength : Nat)
    (Title CurDir AppName : List Nat) : SetUpResult :=
  let lower := lowerLayers env gci pStartupSettings TitleLength Title CurDir AppName
  let settings := lower.1
  let Title := lower.2.1
  let TitleLength := lower.2.2
  let settings := settings.ApplyStartupInfo env.present pStartupSettings
  let events := [SetUpEvent.Validate (settings.Validate env.ranges)]
  let events :=
    match env.LocateHighDpiApi with
    | none => events
    | some true => events ++ [.SetProcessDpiAwarenessContext]
    | some false =>
      events ++ [.SetProcessDpiAwarenessContext, .SetProcessPerMonitorDpiAwareness,
        .EnablePerMonitorDialogScaling]
  let settings :=
    if settings.IsFaceNameSet then settings.SetLaunchFaceName settings.GetFaceName else settings
  let Status := env.AllocateConsole settings Title TitleLength
  let events := events ++ [.AllocateConsole]
  if !NT_SUCCESS Status then ⟨Status, settings, events⟩
  else ⟨STATUS_SUCCESS, settings, events⟩

/-- A layer of the persistent store: the fields it sets. -/
def overlayFillAttribute (v : Nat) (s : Settings) : Settings := s.SetFillAttribute v

/-- A store whose global defaults set the fill attribute to `0x1F` and whose
settings for the title set it to `0x2F`; the startup information defines the
fields whose bit is set in its `StartupFlags` (bit 0 for the fill attribute,
bit 1 for the window size). -/
def sampleSetUpEnv : SetUpEnv :=
  { LoadGlobalsFromRegistry := id
    LoadDefaultFromRegistry := overlayFillAttribute 31
    GetSettingsFromLink := fun s Title n _ _ => (s, Title, n)
    IsStartupTitleIsLinkNameSet := fun _ => false
    LoadFromRegistry := fun s _ => overlayFillAttribute 47 s
    present := fun s f =>
      match f with
      | .FillAttribute => s.StartupFlags % 2 == 1
      | .WindowSize => s.StartupFlags / 2 % 2 == 1
      | _ => false
    ranges := fun _ => true
    LocateHighDpiApi := some false
    AllocateConsole := fun _ _ _ => STATUS_SUCCESS }

/-- A startup information that defines the fill attribute `0x4E` and nothing else. -/
def sampleStartupInfo : Settings :=
  ⟨0, 1, 78, 0, ⟨0, 0⟩, ⟨0, 0⟩, ⟨0, 0⟩, none, none⟩

/-- The hardcoded defaults of the sample. -/
def sampleDefaults : Settings :=
  ⟨0, 0, 7, 1, ⟨80, 300⟩, ⟨80, 25⟩, ⟨0, 0⟩, some (wstr "Consolas"), none⟩

/-! ## `ConsoleIoThread` -/

/-- The Win32 error code `ERROR_PIPE_NOT_CONNECTED`. -/
def ERROR_PIPE_NOT_CONNECTED : Int := 233

/-- The macro `HRESULT_FROM_WIN32`: for a positive code,
`(x & 0xFFFF) | (FACILITY_WIN32 << 16) | 0x80000000` as a signed 32-bit value. -/
def HRESULT_FROM_WIN32 (x : Int) : HRESULT :=
  if x ≤ 0 then x else x % 65536 + 7 * 65536 + 2147483648 - 4294967296

/-- What one call of `ReadIo` gives: its `HRESULT` and, for a message that is
then serviced, the reply `ServiceIoOperation` leaves in `ReplyMsg` (`none` is
`nullptr`). -/
structure ReadIoResult where
  hr : HRESULT
  ReplyMsg : Option Nat
  deriving DecidableEq, Repr

/-- The calls of `ConsoleIoThread`, in program order. `ReadIo` carries the
reply whose completion is handed to the driver. -/
inductive IoEvent where
  | ReleaseMessageBuffers (ReplyMsg : Nat)
  | ReadIo (ReplyMsg : Option Nat)
  | TerminateProcess (uExitCode : NTSTATUS)
  | RIPMSG1 (hr : HRESULT)
  | ServiceIoOperation
  | Return (value : Nat)
  deriving DecidableEq, Repr

def IoEvent.isReadIo : IoEvent → Bool
  | .ReadIo _ => true
  | _ => false

def IoEvent.isTerminateProcess : IoEvent → Bool
  | .TerminateProcess _ => true
  | _ => false

def IoEvent.isServiceIoOperation : IoEvent → Bool
  | .ServiceIoOperation => true
  | _ => false

/-- Lines 556-559: the buffers of a reply are released when there is one. -/
def releaseReply : Option Nat → List IoEvent
  | none => []
  | some ReplyMsg => [.ReleaseMessageBuffers ReplyMsg]

/-- The loop `while (!fShouldExit)` of `ConsoleIoThread`, fed with the results
of its calls of `ReadIo`; its state is `ReplyMsg` and `fShouldExit`. When no
result is left the last call of `ReadIo` does not return. `TerminateProcess`
ends the process unless `TerminateProcessReturns`. -/
def ioLoop (TerminateProcessReturns : Bool) :
    List ReadIoResult → Option Nat → Bool → List IoEvent
  | _, _, true => [.Return 0]
  | [], ReplyMsg, false => releaseReply ReplyMsg ++ [.ReadIo ReplyMsg]
  | r :: rest, ReplyMsg, false =>
    releaseReply ReplyMsg ++ [.ReadIo ReplyMsg] ++
      if FAILED r.hr then
        if r.hr = HRESULT_FROM_WIN32 ERROR_PIPE_NOT_CONNECTED then
          .TerminateProcess STATUS_SUCCESS ::
            (if TerminateProcessReturns then
              .RIPMSG1 r.hr :: ioLoop TerminateProcessReturns rest none true
            else [])
        else
          .RIPMSG1 r.hr :: ioLoop TerminateProcessReturns rest none false
      else
        .ServiceIoOperation :: ioLoop TerminateProcessReturns rest r.ReplyMsg false

/-- The routine `ConsoleIoThread`. -/
def ConsoleIoThread (TerminateProcessReturns : Bool) (results : List ReadIoResult) :
    List IoEvent :=
  ioLoop TerminateProcessReturns results none false

/-- A request that is served with reply 1, a transient failure (`E_FAIL`), a
second request, the disconnection, and results that are never asked for. -/
def sampleResults : List ReadIoResult :=
  [⟨0, some 1⟩, ⟨-2147467259, none⟩, ⟨0, some 2⟩, ⟨-2147024663, none⟩, ⟨0, some 3⟩,
    ⟨-2147467259, none⟩]

/-! ## `ConsoleAllocateConsole` -/

/-- What `ConsoleAllocateConsole` takes from outside the file. -/
structure AllocEnv where
  /-- The status `SetUpConsole` returns for the fields of the request. -/
  SetUpConsole : Settings → Nat → List Nat → List Nat → List Nat → NTSTATUS
  /-- The handle `pNewThread->Start()` returns; `none` is `nullptr`. -/
  Start : Option Nat
  GetThreadId : Nat
  /-- The value of `ntstatusConsoleInputInitStatus` once the wait has returned. -/
  ntstatusConsoleInputInitStatus : NTSTATUS
  CONSOLE_NO_WINDOW : Nat

/-- The calls of `ConsoleAllocateConsole`, in program order. -/
inductive AllocEvent where
  | LogApiCall
  | SetUpConsole
  | CreateConsoleInputThread
  | Start
  | UnlockConsole
  | WaitInitEvent
  | LockConsole
  | CloseHandle (Thread : Nat)
  | ReleaseInitEvent
  | ReadInitStatus
  | AllowUIAccess
  deriving DecidableEq, Repr

/-- What a call of `ConsoleAllocateConsole` leaves behind. -/
structure AllocResult where
  Status : NTSTATUS
  events : List AllocEvent
  Flags : Nat
  dwInputThreadId : Nat
  deriving DecidableEq, Repr

/-- The routine `ConsoleAllocateConsole`; `Flags` is `gci->Flags` and
`dwInputThreadId` the global of that name, before the call. -/
def ConsoleAllocateConsole (env : AllocEnv) (p : CONSOLE_API_CONNECTINFO)
    (Flags dwInputThreadId : Nat) : AllocResult :=
  let events := [AllocEvent.LogApiCall, .SetUpConsole]
  let Status := env.SetUpConsole p.ConsoleInfo p.TitleLength p.Title p.CurDir p.AppName
  if !NT_SUCCESS Status then ⟨Status, events, Flags, dwInputThreadId⟩
  else if NT_SUCCESS Status && p.WindowVisible != 0 then
    let events := events ++ [.CreateConsoleInputThread, .Start]
    match env.Start with
    | none => ⟨STATUS_NO_MEMORY, events, Flags, dwInputThreadId⟩
    | some Thread =>
      let events := events ++ [.UnlockConsole, .WaitInitEvent, .LockConsole]
      let events := events ++ [.CloseHandle Thread, .ReleaseInitEvent, .ReadInitStatus]
      let Status :=
        if !NT_SUCCESS env.ntstatusConsoleInputInitStatus then
          env.ntstatusConsoleInputInitStatus
        else STATUS_SUCCESS
      ⟨Status, events ++ [.AllowUIAccess], Flags, env.GetThreadId⟩
  else ⟨Status, events, Flags ||| env.CONSOLE_NO_WINDOW, dwInputThreadId⟩

/-- The effect of a call on the console lock, held or not: `UnlockConsole`
releases it and `LockConsole` acquires it (line 499: "The ConsoleInputThread
needs to lock the console so we must first unlock it ourselves"). -/
def lockStep (held : Bool) : AllocEvent → Bool
  | .UnlockConsole => false
  | .LockConsole => true
  | _ => held

/-- Whether the lock is held after a list of calls. -/
def lockAfter (held : Bool) (events : List AllocEvent) : Bool := events.foldl lockStep held

/-- Whether the lock is held at each wait on the init event. -/
def heldAtWait (held : Bool) : List AllocEvent → List Bool
  | [] => []
  | e :: events =>
    (if e = .WaitInitEvent then [held] else []) ++ heldAtWait (lockStep held e) events

def AllocEvent.isLockCall : AllocEvent → Bool
  | .UnlockConsole => true
  | .LockConsole => true
  | .WaitInitEvent => true
  | _ => false

/-- An environment in which everything succeeds. -/
def sampleAllocEnv : AllocEnv :=
  { SetUpConsole := fun _ _ _ _ _ => STATUS_SUCCESS
    Start := some 4
    GetThreadId := 1234
    ntstatusConsoleInputInitStatus := STATUS_SUCCESS
    CONSOLE_NO_WINDOW := 2048 }

/-- An environment in which the worker reports `STATUS_NO_MEMORY`. -/
def workerFailsEnv : AllocEnv :=
  { sampleAllocEnv with ntstatusConsoleInputInitStatus := STATUS_NO_MEMORY }

/-- A request with a visible window. -/
def visibleRequest : CONSOLE_API_CONNECTINFO := { sampleCac with WindowVisible := 1 }

/-! ## Further definitions for the properties -/

/-- The buffers of the connection information have the size their declaration
gives them, which is the size of the payload buffers (the three `ASSERT`s of
`ConsoleInitializeConnectInfo`). -/
def CONSOLE_API_CONNECTINFO.WellSized (L : MsgLayout) (Cac : CONSOLE_API_CONNECTINFO) : Prop :=
  Cac.AppName.length = L.sizeof .ApplicationName ∧ Cac.Title.length = L.sizeof .Title ∧
    Cac.CurDir.length = L.sizeof .CurrentDirectory

/-- A payload with an empty title and bytes behind its terminator. -/
def payloadTrailing : CONSOLE_SERVER_MSG :=
  { samplePayload with TitleLength := 0, Title := [0, 0, 88, 89] }

/-- The condition of the `if` at lines 293-296 of `TranslateConsoleTitle`, on the
title and the system root as strings: whether the prefix is replaced. -/
def prefixReplaced (env : TitleEnv) (title : List Nat) (fUnexpand : Bool) : Bool :=
  fUnexpand && decide ((wcs title).length ≥ (wcs env.GetWindowsDirectoryW.2).length) &&
    (CompareStringOrdinal env.upcase true
        (title.take (wcs env.GetWindowsDirectoryW.2).length)
        (env.GetWindowsDirectoryW.2.take (wcs env.GetWindowsDirectoryW.2).length)
      == CSTR_EQUAL)

/-- The part of the title the loop copies: all of it, or what follows the
system root when the prefix is replaced. -/
def remainingTitle (env : TitleEnv) (title : List Nat) (fUnexpand : Bool) : List Nat :=
  (wcs title).drop
    (if prefixReplaced env title fUnexpand then (wcs env.GetWindowsDirectoryW.2).length else 0)

/-- An environment in which the input thread cannot be started. -/
def noThreadEnv : AllocEnv := { sampleAllocEnv with Start := none }

/-- A request without a window. -/
def hiddenRequest : CONSOLE_API_CONNECTINFO := { sampleCac with WindowVisible := 0 }

/-- The buffer for the title "C:" when the prefix is not replaced: three code
units; the copy of the token is cut to two code units and a terminator. -/
def shortTranslated : TranslatedTitle :=
  { cbTranslatedConsoleTitle := 6
    initial := [52685, 52685, 52685]
    stores := [⟨0, 37⟩, ⟨1, 83⟩, ⟨2, 121⟩, ⟨2, 0⟩, ⟨0, 67⟩, ⟨1, 58⟩, ⟨2, 0⟩] }

/-! ## Helper lemmas for `ConsoleInitializeConnectInfo` -/

theorem Cond.or_fst (a : Cond) (b : Unit → Cond) : (a.or b).1 = (a.1 || (b ()).1) := by
  unfold Cond.or
  cases h : a.1 <;> simp [h]

theorem Cond.or_true_left {a : Cond} (b : Unit → Cond) (h : a.1 = true) : a.or b = a := by
  unfold Cond.or
  simp [h]

theorem Cond.or_false_left {a : Cond} (b : Unit → Cond) (h : a.1 = false) :
    a.or b = ((b ()).1, a.2 ++ (b ()).2) := by
  unfold Cond.or
  simp [h]

theorem lengthTooLarge_snd (L : MsgLayout) (Data : CONSOLE_SERVER_MSG) (b : StrBuf) :
    (lengthTooLarge L Data b).2 = [] := rfl

theorem lengthTooLarge_fst (L : MsgLayout) (Data : CONSOLE_SERVER_MSG) (b : StrBuf) :
    (lengthTooLarge L Data b).1 = decide (Data.len b > L.sizeof b - sizeof_WCHAR) := rfl

/-- The validation reads nothing when one of the three length comparisons holds. -/
theorem validationFails_of_lengthTooLarge (L : MsgLayout) (Data : CONSOLE_SERVER_MSG)
    (h : ∃ b, Data.len b > L.sizeof b - sizeof_WCHAR) :
    validationFails L Data = (true, []) := by
  unfold validationFails
  by_cases h1 : Data.len .ApplicationName > L.sizeof .ApplicationName - sizeof_WCHAR
  · rw [Cond.or_true_left _ (by simp [lengthTooLarge_fst, h1])]
    simp [lengthTooLarge, Cond.pure, h1]
  rw [Cond.or_false_left _ (by simp [lengthTooLarge_fst, h1])]
  by_cases h2 : Data.len .Title > L.sizeof .Title - sizeof_WCHAR
  · rw [Cond.or_true_left _ (by simp [lengthTooLarge_fst, h2])]
    simp [lengthTooLarge, Cond.pure, h2]
  rw [Cond.or_false_left _ (by simp [lengthTooLarge_fst, h2])]
  by_cases h3 : Data.len .CurrentDirectory > L.sizeof .CurrentDirectory - sizeof_WCHAR
  · rw [Cond.or_true_left _ (by simp [lengthTooLarge_fst, h3])]
    simp [lengthTooLarge, Cond.pure, h3]
  exfalso
  obtain ⟨b, hb⟩ := h
  cases b
  · exact h1 hb
  · exact h2 hb
  · exact h3 hb

/-- With the three lengths in range, the validation is the disjunction of the
three terminator tests. -/
theorem validationFails_fst_of_lengths_ok (L : MsgLayout) (Data : CONSOLE_SERVER_MSG)
    (h : ∀ b, Data.len b ≤ L.sizeof b - sizeof_WCHAR) :
    (validationFails L Data).1 =
      ((terminatorMissing Data .ApplicationName).1 || (terminatorMissing Data .Title).1 ||
        (terminatorMissing Data .CurrentDirectory).1) := by
  have h1 := h .ApplicationName
  have h2 := h .Title
  have h3 := h .CurrentDirectory
  unfold validationFails
  simp only [Cond.or_fst, lengthTooLarge_fst]
  simp [Nat.not_lt.mpr h1, Nat.not_lt.mpr h2, Nat.not_lt.mpr h3, Bool.or_assoc]

/-- A non-zero byte at offset `n` makes the code unit at index `n / 2` non-zero. -/
theorem wcharAt_ne_zero_of_byte (bytes : List Nat) (n : Nat) (h : bytes.getD n 0 ≠ 0) :
    wcharAt bytes (n / sizeof_WCHAR) ≠ UNICODE_NULL := by
  unfold wcharAt sizeof_WCHAR UNICODE_NULL
  rcases Nat.mod_two_eq_zero_or_one n with h0 | h1
  · have e : 2 * (n / 2) = n := by omega
    rw [e]
    omega
  · have e : 2 * (n / 2) + 1 = n := by omega
    rw [e]
    omega

/-- Every array read of the validation is inside its buffer, for every payload. -/
theorem validationFails_reads_inBounds (L : MsgLayout) (Data : CONSOLE_SERVER_MSG) :
    ∀ a ∈ (validationFails L Data).2, a.InBounds L := by
  by_cases h : ∃ b, Data.len b > L.sizeof b - sizeof_WCHAR
  · rw [validationFails_of_lengthTooLarge L Data h]
    simp
  · have hle : ∀ b, Data.len b ≤ L.sizeof b - sizeof_WCHAR := by
      intro b
      by_contra hb
      exact h ⟨b, by omega⟩
    have hin : ∀ b, Data.len b / sizeof_WCHAR < L.cch b := by
      intro b
      have := hle b
      have hp : 0 < L.cch b := by
        cases b
        · exact L.hApplicationName
        · exact L.hTitle
        · exact L.hCurrentDirectory
      unfold MsgLayout.sizeof sizeof_WCHAR at this
      unfold sizeof_WCHAR
      omega
    have hsub : ∀ a ∈ (validationFails L Data).2,
        a ∈ [(⟨.ApplicationName, Data.len .ApplicationName / sizeof_WCHAR⟩ : Access),
          ⟨.Title, Data.len .Title / sizeof_WCHAR⟩,
          ⟨.CurrentDirectory, Data.len .CurrentDirectory / sizeof_WCHAR⟩] := by
      intro a ha
      unfold validationFails Cond.or at ha
      simp only [lengthTooLarge_snd, lengthTooLarge_fst, terminatorMissing] at ha
      split_ifs at ha <;> simp [lengthTooLarge_snd] at ha ⊢ <;> tauto
    intro a ha
    have := hsub a ha
    simp only [List.mem_cons, List.mem_singleton, List.not_mem_nil, or_false] at this
    unfold Access.InBounds
    rcases this with e | e | e <;> subst e <;> exact hin _

theorem connectInfo_of_read_failed (L : MsgLayout) (conv : HRESULT → NTSTATUS)
    (rd : HRESULT × CONSOLE_SERVER_MSG) (Cac : CONSOLE_API_CONNECTINFO)
    (h : NT_SUCCESS (conv rd.1) = false) :
    ConsoleInitializeConnectInfo L conv rd Cac = ⟨conv rd.1, Cac, []⟩ := by
  simp [ConsoleInitializeConnectInfo, h]

theorem connectInfo_of_invalid (L : MsgLayout) (conv : HRESULT → NTSTATUS)
    (rd : HRESULT × CONSOLE_SERVER_MSG) (Cac : CONSOLE_API_CONNECTINFO)
    (h : NT_SUCCESS (conv rd.1) = true) (hv : (validationFails L rd.2).1 = true) :
    ConsoleInitializeConnectInfo L conv rd Cac
      = ⟨STATUS_INVALID_BUFFER_SIZE, Cac, (validationFails L rd.2).2⟩ := by
  simp [ConsoleInitializeConnectInfo, h, hv]

theorem connectInfo_of_valid (L : MsgLayout) (conv : HRESULT → NTSTATUS)
    (rd : HRESULT × CONSOLE_SERVER_MSG) (Cac : CONSOLE_API_CONNECTINFO)
    (h : NT_SUCCESS (conv rd.1) = true) (hv : (validationFails L rd.2).1 = false) :
    ConsoleInitializeConnectInfo L conv rd Cac
      = ⟨STATUS_SUCCESS, initializeConnectInfo L rd.2 Cac, (validationFails L rd.2).2⟩ := by
  simp [ConsoleInitializeConnectInfo, h, hv]

/-! ## Properties of `ConsoleInitializeConnectInfo` -/

/-- C1: if the payload was read successfully and one of `ApplicationNameLength`,
`TitleLength`, `CurrentDirectoryLength` is greater than `sizeof(buffer) - sizeof(WCHAR)`,
the routine returns `STATUS_INVALID_BUFFER_SIZE`; the validation evaluated no
element of the three arrays at all, so in particular none at or beyond a
buffer's capacity. -/
theorem connectInfo_rejects_oversized_length (L : MsgLayout)
    (NTSTATUS_FROM_HRESULT : HRESULT → NTSTATUS) (hr : HRESULT) (Data : CONSOLE_SERVER_MSG)
    (Cac : CONSOLE_API_CONNECTINFO)
    (hread : NT_SUCCESS (NTSTATUS_FROM_HRESULT hr) = true)
    (hlen : ∃ b : StrBuf, Data.len b > L.sizeof b - sizeof_WCHAR) :
    (ConsoleInitializeConnectInfo L NTSTATUS_FROM_HRESULT (hr, Data) Cac).Status
        = STATUS_INVALID_BUFFER_SIZE ∧
      (ConsoleInitializeConnectInfo L NTSTATUS_FROM_HRESULT (hr, Data) Cac).reads = [] ∧
      ∀ a ∈ (ConsoleInitializeConnectInfo L NTSTATUS_FROM_HRESULT (hr, Data) Cac).reads,
        ¬ L.cch a.buf ≤ a.index := by
  have hv := validationFails_of_lengthTooLarge L Data hlen
  rw [connectInfo_of_invalid L _ _ Cac hread (by rw [hv]), hv]
  simp

theorem connectInfo_rejects_oversized_length_witness :
    (ConsoleInitializeConnectInfo sampleLayout id (0, payloadTooLong) sampleCac).Status
        = STATUS_INVALID_BUFFER_SIZE ∧
      (ConsoleInitializeConnectInfo sampleLayout id (0, payloadTooLong) sampleCac).reads = [] ∧
      ∀ a ∈ (ConsoleInitializeConnectInfo sampleLayout id (0, payloadTooLong) sampleCac).reads,
        ¬ sampleLayout.cch a.buf ≤ a.index :=
  connectInfo_rejects_oversized_length sampleLayout id 0 payloadTooLong sampleCac (by decide)
    ⟨.Title, by decide⟩

/-- C2: if the payload was read successfully, the three declared byte lengths are
at most `sizeof(buffer) - sizeof(WCHAR)`, and for one of the buffers the byte at
the offset given by its declared length is not zero, the routine returns
`STATUS_INVALID_BUFFER_SIZE`. The length may be even or odd: the byte at offset
`n` (here `getD`, the byte stored at that offset) is one of the two bytes of the
code unit at index `n / sizeof(WCHAR)`, which is the one the code tests. -/
theorem connectInfo_rejects_missing_terminator (L : MsgLayout)
    (NTSTATUS_FROM_HRESULT : HRESULT → NTSTATUS) (hr : HRESULT) (Data : CONSOLE_SERVER_MSG)
    (Cac : CONSOLE_API_CONNECTINFO)
    (hread : NT_SUCCESS (NTSTATUS_FROM_HRESULT hr) = true)
    (hlen : ∀ b : StrBuf, Data.len b ≤ L.sizeof b - sizeof_WCHAR)
    (hterm : ∃ b : StrBuf, (Data.buf b).getD (Data.len b) 0 ≠ 0) :
    (ConsoleInitializeConnectInfo L NTSTATUS_FROM_HRESULT (hr, Data) Cac).Status
      = STATUS_INVALID_BUFFER_SIZE := by
  have hv : (validationFails L Data).1 = true := by
    rw [validationFails_fst_of_lengths_ok L Data hlen]
    obtain ⟨b, hb⟩ := hterm
    have := wcharAt_ne_zero_of_byte _ _ hb
    cases b <;> simp [terminatorMissing, this]
  rw [connectInfo_of_invalid L _ _ Cac hread hv]

theorem connectInfo_rejects_missing_terminator_witness :
    (ConsoleInitializeConnectInfo sampleLayout id (0, payloadOddLength) sampleCac).Status
      = STATUS_INVALID_BUFFER_SIZE :=
  connectInfo_rejects_missing_terminator sampleLayout id 0 payloadOddLength sampleCac
    (by decide) (fun b => by cases b <;> decide) ⟨.CurrentDirectory, by decide⟩

/-- C3: whenever the routine returns a status that is not a success (it fails
`NT_SUCCESS`, or merely differs from `STATUS_SUCCESS`), be it the status of the
failed read or `STATUS_INVALID_BUFFER_SIZE`, the connection information `*Cac`
is exactly what it was before the call. -/
theorem connectInfo_failure_leaves_cac (L : MsgLayout)
    (NTSTATUS_FROM_HRESULT : HRESULT → NTSTATUS) (ReadMessageInput : HRESULT × CONSOLE_SERVER_MSG)
    (Cac : CONSOLE_API_CONNECTINFO)
    (h : NT_SUCCESS (ConsoleInitializeConnectInfo L NTSTATUS_FROM_HRESULT ReadMessageInput
            Cac).Status = false ∨
          (ConsoleInitializeConnectInfo L NTSTATUS_FROM_HRESULT ReadMessageInput Cac).Status
            ≠ STATUS_SUCCESS) :
    (ConsoleInitializeConnectInfo L NTSTATUS_FROM_HRESULT ReadMessageInput Cac).Cac = Cac := by
  cases h1 : NT_SUCCESS (NTSTATUS_FROM_HRESULT ReadMessageInput.1)
  · rw [connectInfo_of_read_failed L _ _ Cac h1]
  · cases h2 : (validationFails L ReadMessageInput.2).1
    · rw [connectInfo_of_valid L _ _ Cac h1 h2] at h
      exact absurd h (by simp [NT_SUCCESS, STATUS_SUCCESS])
    · rw [connectInfo_of_invalid L _ _ Cac h1 h2]

theorem connectInfo_failure_leaves_cac_witness :
    (ConsoleInitializeConnectInfo sampleLayout id (0, payloadOddLength) sampleCac).Cac
      = sampleCac :=
  connectInfo_failure_leaves_cac sampleLayout id (0, payloadOddLength) sampleCac
    (Or.inl (by decide))

/-- The stores of consecutive code units starting at an index. -/
theorem copyStores_length (n i : Nat) (src : List Nat) :
    (copyStores n i src).length = min n src.length := by
  induction n generalizing i src with
  | zero => simp [copyStores]
  | succ n ih =>
    cases src with
    | nil => simp [copyStores]
    | cons c src => simp [copyStores, ih, Nat.succ_min_succ]

theorem wcs_getD_of_nil (t : List Nat) (p : Nat) (h : wcs (t.drop p) = []) :
    t.getD p 0 = 0 := by
  unfold wcs at h
  rw [List.getD_eq_getElem?_getD, ← List.head?_drop]
  cases hd : t.drop p with
  | nil => simp
  | cons a l =>
    rw [hd] at h
    simp [List.takeWhile_cons] at h
    simp [h]

theorem wcs_getD_of_cons (t : List Nat) (p c : Nat) (r : List Nat)
    (h : wcs (t.drop p) = c :: r) :
    t.getD p 0 = c ∧ c ≠ 0 ∧ wcs (t.drop (p + 1)) = r := by
  unfold wcs at h ⊢
  rw [List.getD_eq_getElem?_getD, ← List.head?_drop, ← List.tail_drop]
  cases hd : t.drop p with
  | nil => rw [hd] at h; simp at h
  | cons a l =>
    rw [hd] at h
    by_cases ha : a = 0
    · simp [List.takeWhile_cons, ha] at h
    · simp [List.takeWhile_cons, ha] at h
      obtain ⟨h1, h2⟩ := h
      subst h1
      simp [ha, h2]



theorem storesAt_append (q : Nat) (l1 l2 : List Nat) :
    storesAt q (l1 ++ l2) = storesAt q l1 ++ storesAt (q + l1.length) l2 := by
  induction l1 generalizing q with
  | nil => simp [storesAt]
  | cons c l ih => simp [storesAt, ih, Nat.add_assoc, Nat.add_comm 1]

theorem copyStores_eq_storesAt (n i : Nat) (src : List Nat) (h : src.length ≤ n) :
    copyStores n i src = storesAt i src := by
  induction src generalizing n i with
  | nil => cases n <;> simp [copyStores, storesAt]
  | cons c l ih =>
    cases n with
    | zero => simp at h
    | succ n =>
      simp only [copyStores, storesAt]
      rw [ih n (i + 1) (by simpa using h)]

theorem substitute_true (c : Nat) : substitute true c = substituteChar c := by
  unfold substitute substituteChar
  by_cases h : c = BACKSLASH <;> simp [h]

theorem substitute_false (c : Nat) : substitute false c = c := by
  simp [substitute]

theorem substitute_ne_zero (f : Bool) (c : Nat) (h : c ≠ 0) : substitute f c ≠ 0 := by
  unfold substitute
  split_ifs
  · decide
  · exact h

/-- The copy loop started at a position of the title: it stores the rest of the
string, substituted, and then the terminator, and stops there. -/
theorem copyLoop_eq (fS : Bool) (t : List Nat) (cb : Nat) (hcb : cb ≤ 2 ^ 32) :
    ∀ (rest : List Nat) (fuel i p q : Nat) (S : List Store),
      wcs (t.drop p) = rest → i + 2 * (rest.length + 1) = cb → rest.length + 1 ≤ fuel →
      copyLoop fS t cb fuel ⟨i, p, q, S⟩ =
        ⟨i + 2 * rest.length, p + rest.length, q + rest.length + 1,
          S ++ storesAt q (rest.map (substitute fS) ++ [0])⟩ := by
  intro rest
  induction rest with
  | nil =>
    intro fuel i p q S hw hi hf
    obtain ⟨f, rfl⟩ : ∃ f, fuel = f + 1 := ⟨fuel - 1, by simp at hf; omega⟩
    have hc := wcs_getD_of_nil t p hw
    have hlt : i < cb := by simp at hi; omega
    rw [copyLoop]
    simp only [hlt, if_true, hc]
    simp [BACKSLASH, storesAt]
  | cons c r ih =>
    intro fuel i p q S hw hi hf
    obtain ⟨f, rfl⟩ : ∃ f, fuel = f + 1 := ⟨fuel - 1, by simp at hf; omega⟩
    obtain ⟨hc, hc0, hr⟩ := wcs_getD_of_cons t p c r hw
    simp only [List.length_cons] at hi hf
    have hlt : i < cb := by omega
    have hmod : (i + sizeof_WCHAR) % 2 ^ 32 = i + 2 := by
      unfold sizeof_WCHAR
      exact Nat.mod_eq_of_lt (by omega)
    have hnext := ih f (i + 2) (p + 1) (q + 1)
    by_cases hb : (fS && c == BACKSLASH) = true
    · have := hnext (S ++ [⟨q, UNDERSCORE⟩]) hr (by omega) (by omega)
      rw [copyLoop]
      simp only [hlt, if_true, hc, hb, hmod]
      rw [this]
      simp [storesAt, substitute, hb]
      omega
    · have := hnext (S ++ [⟨q, c⟩]) hr (by omega) (by omega)
      rw [copyLoop]
      simp only [hlt, if_true, hc, hb, hmod, hc0, if_false]
      rw [this]
      simp [storesAt, substitute, hb]
      omega

theorem applyStores_length (S : List Store) (b : List Nat) :
    (applyStores S b).length = b.length := by
  unfold applyStores
  induction S generalizing b with
  | nil => rfl
  | cons s S ih => simp [List.foldl_cons, ih]

theorem applyStores_append (S1 S2 : List Store) (b : List Nat) :
    applyStores (S1 ++ S2) b = applyStores S2 (applyStores S1 b) := by
  simp [applyStores, List.foldl_append]

/-- Storing a list over a segment of the same length replaces the segment. -/
theorem applyStores_storesAt (l : List Nat) :
    ∀ (front old back : List Nat), old.length = l.length →
      applyStores (storesAt front.length l) (front ++ old ++ back) = front ++ l ++ back := by
  induction l with
  | nil =>
    intro front old back h
    have : old = [] := List.length_eq_zero.mp (by simpa using h)
    simp [storesAt, applyStores, this]
  | cons c l ih =>
    intro front old back h
    cases old with
    | nil => simp at h
    | cons o old =>
      have hset : (front ++ o :: old ++ back).set front.length c
          = (front ++ [c]) ++ old ++ back := by
        rw [List.append_assoc, List.set_append_right _ _ (Nat.le_refl _)]
        simp
      have := ih (front ++ [c]) old back (by simpa using h)
      simp only [List.length_append, List.length_singleton] at this
      simp only [storesAt, applyStores, List.foldl_cons]
      rw [hset]
      simpa [applyStores] using this



theorem wcs_ne_zero (t : List Nat) : ∀ c ∈ wcs t, c ≠ 0 := by
  intro c hc
  have := List.mem_takeWhile_imp hc
  simpa using this

theorem wcs_drop (t : List Nat) (n : Nat) (h : n ≤ (wcs t).length) :
    wcs (t.drop n) = (wcs t).drop n := by
  induction t generalizing n with
  | nil => simp [wcs]
  | cons a l ih =>
    cases n with
    | zero => simp
    | succ n =>
      unfold wcs at h ⊢
      by_cases ha : a = 0
      · simp [List.takeWhile_cons, ha] at h
      · simp only [List.takeWhile_cons, ha, ne_eq, not_false_eq_true, decide_True, if_true,
          List.length_cons, Nat.add_le_add_iff_right] at h
        simp only [List.drop_succ_cons, List.takeWhile_cons, ha, ne_eq, not_false_eq_true,
          decide_True, if_true]
        exact ih n h

theorem wcs_take (t : List Nat) (n : Nat) (h : n ≤ (wcs t).length) :
    t.take n = (wcs t).take n := by
  obtain ⟨r, hr⟩ : wcs t <+: t := List.takeWhile_prefix _
  conv_lhs => rw [← hr]
  exact List.take_append_of_le_length h

theorem StringCbLengthW_eq (psz : List Nat) (cbMax : Nat)
    (hmax : cbMax / sizeof_WCHAR ≤ STRSAFE_MAX_CCH)
    (h : (wcs psz).length < cbMax / sizeof_WCHAR) :
    StringCbLengthW psz cbMax = some ((wcs psz).length * sizeof_WCHAR) := by
  unfold StringCbLengthW
  simp [Nat.not_lt.mpr hmax, h]

theorem StringCbLengthW_eq_none (psz : List Nat) (cbMax : Nat)
    (h : cbMax / sizeof_WCHAR ≤ (wcs psz).length) :
    StringCbLengthW psz cbMax = none := by
  unfold StringCbLengthW
  simp [Nat.not_lt.mpr h]

/-- The comparison ignoring case gives `CSTR_EQUAL` exactly for strings with the
same upper-case image. -/
theorem CompareStringOrdinal_eq_iff (upcase : Nat → Nat) (s1 s2 : List Nat) :
    CompareStringOrdinal upcase true s1 s2 = CSTR_EQUAL ↔ s1.map upcase = s2.map upcase := by
  induction s1 generalizing s2 with
  | nil => cases s2 <;> simp [CompareStringOrdinal, CSTR_EQUAL, CSTR_LESS_THAN]
  | cons a s1 ih =>
    cases s2 with
    | nil => simp [CompareStringOrdinal, CSTR_EQUAL, CSTR_GREATER_THAN]
    | cons b s2 =>
      simp only [CompareStringOrdinal, if_true, List.map_cons, List.cons.injEq]
      split_ifs with h1 h2
      · simp [CSTR_EQUAL, CSTR_LESS_THAN]; omega
      · simp [CSTR_EQUAL, CSTR_GREATER_THAN]; omega
      · rw [ih]
        have : upcase a = upcase b := by omega
        simp [this]

/-- Whether the title begins with the system root: the title is at least as long
and its first code units agree with the root ignoring case. -/
theorem beginsWithRoot_iff (env : TitleEnv) (title : List Nat) :
    (decide ((wcs title).length ≥ (wcs env.GetWindowsDirectoryW.2).length) &&
        (CompareStringOrdinal env.upcase true
            (title.take (wcs env.GetWindowsDirectoryW.2).length)
            (env.GetWindowsDirectoryW.2.take (wcs env.GetWindowsDirectoryW.2).length)
          == CSTR_EQUAL)) = true ↔
      ((wcs env.GetWindowsDirectoryW.2).length ≤ (wcs title).length ∧
        ((wcs title).take (wcs env.GetWindowsDirectoryW.2).length).map env.upcase
          = (wcs env.GetWindowsDirectoryW.2).map env.upcase) := by
  simp only [Bool.and_eq_true, decide_eq_true_eq, beq_iff_eq, ge_iff_le]
  constructor
  · rintro ⟨h1, h2⟩
    refine ⟨h1, ?_⟩
    rw [CompareStringOrdinal_eq_iff, wcs_take _ _ h1, wcs_take _ _ (Nat.le_refl _),
      List.take_length] at h2
    exact h2
  · rintro ⟨h1, h2⟩
    refine ⟨h1, ?_⟩
    rw [CompareStringOrdinal_eq_iff, wcs_take _ _ h1, wcs_take _ _ (Nat.le_refl _),
      List.take_length]
    exact h2

theorem mul_sizeof_div (n : Nat) : n * sizeof_WCHAR / sizeof_WCHAR = n :=
  Nat.mul_div_cancel n (by decide)

/-- The result of `TranslateConsoleTitle` in terms of the two strings, when the
allocations succeed, the Windows directory is returned and both lengths are
within what `StringCbLengthW` is given as maximum. -/
theorem TranslateConsoleTitle_eq (env : TitleEnv) (title : List Nat) (fU fS : Bool)
    (hnew : env.newSysRoot = true) (hdir : env.GetWindowsDirectoryW.1 ≠ 0)
    (hbyte : ∀ cb, env.newBYTE cb = true)
    (hroot : (wcs env.GetWindowsDirectoryW.2).length < MAX_PATH / sizeof_WCHAR)
    (htitle : (wcs title).length < STRSAFE_MAX_CCH / sizeof_WCHAR)
    (u : Bool)
    (hu : u = (fU && decide ((wcs title).length ≥ (wcs env.GetWindowsDirectoryW.2).length) &&
        (CompareStringOrdinal env.upcase true
            (title.take (wcs env.GetWindowsDirectoryW.2).length)
            (env.GetWindowsDirectoryW.2.take (wcs env.GetWindowsDirectoryW.2).length)
          == CSTR_EQUAL))) :
    TranslateConsoleTitle env title fU fS = some
      { cbTranslatedConsoleTitle :=
          (if u then SYSTEM_ROOT_LENGTH else 0) + ((wcs title).length * sizeof_WCHAR + sizeof_WCHAR
            - (if u then (wcs env.GetWindowsDirectoryW.2).length * sizeof_WCHAR else 0))
        initial := (List.range (((if u then SYSTEM_ROOT_LENGTH else 0)
            + ((wcs title).length * sizeof_WCHAR + sizeof_WCHAR
            - (if u then (wcs env.GetWindowsDirectoryW.2).length * sizeof_WCHAR else 0)))
              / sizeof_WCHAR)).map env.fresh
        stores := StringCbCopy ((if u then SYSTEM_ROOT_LENGTH else 0)
            + ((wcs title).length * sizeof_WCHAR + sizeof_WCHAR
            - (if u then (wcs env.GetWindowsDirectoryW.2).length * sizeof_WCHAR else 0))) SYSTEM_ROOT
          ++ storesAt ((if u then SYSTEM_ROOT_LENGTH else 0) / sizeof_WCHAR)
            (((wcs title).drop (if u then (wcs env.GetWindowsDirectoryW.2).length else 0)).map
              (substitute fS) ++ [0]) } := by
  have h1 := StringCbLengthW_eq title STRSAFE_MAX_CCH (by decide) htitle
  have h2 := StringCbLengthW_eq env.GetWindowsDirectoryW.2 MAX_PATH (by decide) hroot
  unfold TranslateConsoleTitle
  simp only [hnew, hdir, h1, h2, mul_sizeof_div, hbyte, ← hu, Bool.not_true, Bool.false_eq_true,
    if_false]
  cases u with
  | true =>
    have hle : (wcs env.GetWindowsDirectoryW.2).length ≤ (wcs title).length := by
      have := hu.symm
      simp only [Bool.and_eq_true, decide_eq_true_eq] at this
      exact this.1.2
    have hloop := copyLoop_eq fS title
      ((wcs title).length * sizeof_WCHAR + sizeof_WCHAR
        - (wcs env.GetWindowsDirectoryW.2).length * sizeof_WCHAR)
      (by
        have : STRSAFE_MAX_CCH / sizeof_WCHAR = 1073741823 := by decide
        rw [this] at htitle
        unfold sizeof_WCHAR
        omega)
      ((wcs title).drop (wcs env.GetWindowsDirectoryW.2).length)
      ((wcs title).length * sizeof_WCHAR + sizeof_WCHAR
        - (wcs env.GetWindowsDirectoryW.2).length * sizeof_WCHAR)
      0 (wcs env.GetWindowsDirectoryW.2).length (SYSTEM_ROOT_LENGTH / sizeof_WCHAR)
      (StringCbCopy (SYSTEM_ROOT_LENGTH + ((wcs title).length * sizeof_WCHAR + sizeof_WCHAR
        - (wcs env.GetWindowsDirectoryW.2).length * sizeof_WCHAR)) SYSTEM_ROOT)
      (wcs_drop _ _ hle)
      (by simp only [List.length_drop]; unfold sizeof_WCHAR; omega)
      (by simp only [List.length_drop]; unfold sizeof_WCHAR; omega)
    simp only [if_true]
    rw [hloop]
  | false =>
    have hloop := copyLoop_eq fS title
      ((wcs title).length * sizeof_WCHAR + sizeof_WCHAR)
      (by
        have : STRSAFE_MAX_CCH / sizeof_WCHAR = 1073741823 := by decide
        rw [this] at htitle
        unfold sizeof_WCHAR
        omega)
      (wcs title)
      ((wcs title).length * sizeof_WCHAR + sizeof_WCHAR)
      0 0 (0 / sizeof_WCHAR)
      (StringCbCopy (0 + ((wcs title).length * sizeof_WCHAR + sizeof_WCHAR)) SYSTEM_ROOT)
      (by simp)
      (by unfold sizeof_WCHAR; omega)
      (by unfold sizeof_WCHAR; omega)
    simp only [Bool.false_eq_true, if_false, Nat.sub_zero, List.drop_zero]
    rw [hloop]

theorem SYSTEM_ROOT_length : SYSTEM_ROOT.length = 12 := by decide

theorem SYSTEM_ROOT_LENGTH_eq : SYSTEM_ROOT_LENGTH = 24 := by decide

theorem SYSTEM_ROOT_ne_zero : ∀ c ∈ SYSTEM_ROOT, c ≠ 0 := by decide

/-- With room for the token and its terminator, `StringCbCopy` stores exactly these. -/
theorem StringCbCopy_SYSTEM_ROOT (cb : Nat) (h1 : 13 ≤ cb / sizeof_WCHAR)
    (h2 : cb / sizeof_WCHAR ≤ STRSAFE_MAX_CCH) :
    StringCbCopy cb SYSTEM_ROOT = storesAt 0 (SYSTEM_ROOT ++ [0]) := by
  unfold StringCbCopy
  have hc : copyStores (cb / sizeof_WCHAR) 0 SYSTEM_ROOT = storesAt 0 SYSTEM_ROOT :=
    copyStores_eq_storesAt _ _ _ (by rw [SYSTEM_ROOT_length]; omega)
  have hl : (storesAt 0 SYSTEM_ROOT).length = 12 := by decide
  have hne : ¬ (cb / sizeof_WCHAR = 0 ∨ cb / sizeof_WCHAR > STRSAFE_MAX_CCH) := by omega
  simp only [hne, if_false, hc, hl]
  have : ¬ (12 = cb / sizeof_WCHAR) := by omega
  simp only [this, if_false]
  rw [storesAt_append, SYSTEM_ROOT_length]
  rfl

/-- The string in the buffer after some stores followed by the stores of a
string without zero code units and its terminator, which reach the end of the
buffer. -/
theorem wcs_applyStores (S1 : List Store) (q : Nat) (l init : List Nat)
    (hlen : q + l.length + 1 = init.length) (hl : ∀ c ∈ l, c ≠ 0)
    (hfront : ∀ c ∈ (applyStores S1 init).take q, c ≠ 0) :
    wcs (applyStores (S1 ++ storesAt q (l ++ [0])) init) = (applyStores S1 init).take q ++ l := by
  rw [applyStores_append]
  have hb := applyStores_length S1 init
  have hq : ((applyStores S1 init).take q).length = q := by
    rw [List.length_take, hb]
    omega
  have hsplit : applyStores S1 init
      = (applyStores S1 init).take q ++ (applyStores S1 init).drop q ++ [] := by simp
  have := applyStores_storesAt (l ++ [0]) ((applyStores S1 init).take q)
    ((applyStores S1 init).drop q) [] (by simp [hb]; omega)
  rw [hq, ← hsplit] at this
  rw [this]
  unfold wcs
  rw [List.append_nil, ← List.append_assoc, List.takeWhile_append_of_pos]
  · simp
  · intro c hc
    rcases List.mem_append.mp hc with h | h
    · simpa using hfront c h
    · simpa using hl c h

theorem map_substitute_ne_zero (f : Bool) (t : List Nat) (n : Nat) :
    ∀ c ∈ ((wcs t).drop n).map (substitute f), c ≠ 0 := by
  intro c hc
  obtain ⟨a, ha, rfl⟩ := List.mem_map.mp hc
  exact substitute_ne_zero f a (wcs_ne_zero t a (List.mem_of_mem_drop ha))

/-- The string returned when the prefix is replaced. -/
theorem translatedString_unexpand (env : TitleEnv) (title : List Nat) (fU fS : Bool)
    (hnew : env.newSysRoot = true) (hdir : env.GetWindowsDirectoryW.1 ≠ 0)
    (hbyte : ∀ cb, env.newBYTE cb = true)
    (hroot : (wcs env.GetWindowsDirectoryW.2).length < MAX_PATH / sizeof_WCHAR)
    (htitle : (wcs title).length < STRSAFE_MAX_CCH / sizeof_WCHAR)
    (hu : (fU && decide ((wcs title).length ≥ (wcs env.GetWindowsDirectoryW.2).length) &&
        (CompareStringOrdinal env.upcase true
            (title.take (wcs env.GetWindowsDirectoryW.2).length)
            (env.GetWindowsDirectoryW.2.take (wcs env.GetWindowsDirectoryW.2).length)
          == CSTR_EQUAL)) = true) :
    translatedString env title fU fS = some (SYSTEM_ROOT
      ++ ((wcs title).drop (wcs env.GetWindowsDirectoryW.2).length).map (substitute fS)) := by
  have hle : (wcs env.GetWindowsDirectoryW.2).length ≤ (wcs title).length := by
    simp only [Bool.and_eq_true, decide_eq_true_eq] at hu
    exact hu.1.2
  have hmax : STRSAFE_MAX_CCH / sizeof_WCHAR = 1073741823 := by decide
  rw [hmax] at htitle
  unfold translatedString
  rw [TranslateConsoleTitle_eq env title fU fS hnew hdir hbyte hroot (by rw [hmax]; exact htitle)
    true hu.symm]
  simp only [if_true, Option.map_some', TranslatedTitle.string, TranslatedTitle.buffer,
    Option.some.injEq]
  have hcch : (SYSTEM_ROOT_LENGTH + ((wcs title).length * sizeof_WCHAR + sizeof_WCHAR
      - (wcs env.GetWindowsDirectoryW.2).length * sizeof_WCHAR)) / sizeof_WCHAR
      = 13 + ((wcs title).length - (wcs env.GetWindowsDirectoryW.2).length) := by
    rw [SYSTEM_ROOT_LENGTH_eq]
    unfold sizeof_WCHAR
    omega
  rw [StringCbCopy_SYSTEM_ROOT _ (by rw [hcch]; omega)
    (by rw [hcch]; unfold STRSAFE_MAX_CCH; omega), hcch]
  have h12 : SYSTEM_ROOT_LENGTH / sizeof_WCHAR = 12 := by decide
  rw [h12]
  have hfront : ∀ init : List Nat,
      init.length = 13 + ((wcs title).length - (wcs env.GetWindowsDirectoryW.2).length) →
      (applyStores (storesAt 0 (SYSTEM_ROOT ++ [0])) init).take 12 = SYSTEM_ROOT := by
    intro init hi
    have := applyStores_storesAt (SYSTEM_ROOT ++ [0]) [] (init.take 13) (init.drop 13)
      (by simp [SYSTEM_ROOT_length, hi])
    simp only [List.length_nil, List.nil_append, List.take_append_drop] at this
    rw [this, List.append_assoc, List.take_append_of_le_length (by rw [SYSTEM_ROOT_length])]
    exact List.take_of_length_le (by rw [SYSTEM_ROOT_length])
  have hinit : ((List.range (13 + ((wcs title).length
      - (wcs env.GetWindowsDirectoryW.2).length))).map env.fresh).length
      = 13 + ((wcs title).length - (wcs env.GetWindowsDirectoryW.2).length) := by simp
  rw [wcs_applyStores _ 12 _ _ (by simp; omega) (map_substitute_ne_zero _ _ _)
    (by rw [hfront _ hinit]; exact SYSTEM_ROOT_ne_zero), hfront _ hinit]

/-- The string returned when the prefix is not replaced. -/
theorem translatedString_keep (env : TitleEnv) (title : List Nat) (fU fS : Bool)
    (hnew : env.newSysRoot = true) (hdir : env.GetWindowsDirectoryW.1 ≠ 0)
    (hbyte : ∀ cb, env.newBYTE cb = true)
    (hroot : (wcs env.GetWindowsDirectoryW.2).length < MAX_PATH / sizeof_WCHAR)
    (htitle : (wcs title).length < STRSAFE_MAX_CCH / sizeof_WCHAR)
    (hu : (fU && decide ((wcs title).length ≥ (wcs env.GetWindowsDirectoryW.2).length) &&
        (CompareStringOrdinal env.upcase true
            (title.take (wcs env.GetWindowsDirectoryW.2).length)
            (env.GetWindowsDirectoryW.2.take (wcs env.GetWindowsDirectoryW.2).length)
          == CSTR_EQUAL)) = false) :
    translatedString env title fU fS = some ((wcs title).map (substitute fS)) := by
  unfold translatedString
  rw [TranslateConsoleTitle_eq env title fU fS hnew hdir hbyte hroot htitle false hu.symm]
  simp only [Bool.false_eq_true, if_false, Option.map_some', TranslatedTitle.string,
    TranslatedTitle.buffer, Option.some.injEq, Nat.sub_zero, Nat.zero_add, Nat.zero_div,
    List.drop_zero]
  have hcch : ((wcs title).length * sizeof_WCHAR + sizeof_WCHAR) / sizeof_WCHAR
      = (wcs title).length + 1 := by
    unfold sizeof_WCHAR
    omega
  rw [hcch]
  have hz := map_substitute_ne_zero fS title 0
  rw [List.drop_zero] at hz
  rw [wcs_applyStores _ 0 _ _ (by simp) hz (by simp)]
  simp

/-! ## Properties of `TranslateConsoleTitle` -/

/-- What `TranslateConsoleTitle(title, TRUE, TRUE)` returns below the limits
of its two length measurements: when both allocations succeed, `GetWindowsDirectoryW`
returns a system root of fewer than `MAX_PATH / sizeof(WCHAR)` = 130 code units
and the title has fewer than `STRSAFE_MAX_CCH / sizeof(WCHAR)` code units (the
limits given to `StringCbLengthW`), and the title has at least as many code
units as the root and begins with it ignoring case, then
`TranslateConsoleTitle(title, TRUE, TRUE)` returns the token `%SystemRoot%`
followed by the rest of the title with every backslash replaced by `_` and
every other code unit unchanged. -/
theorem translateTitle_unexpand_substitute (env : TitleEnv) (title : List Nat)
    (hnew : env.newSysRoot = true) (hdir : env.GetWindowsDirectoryW.1 ≠ 0)
    (hbyte : ∀ cb, env.newBYTE cb = true)
    (hroot : (wcs env.GetWindowsDirectoryW.2).length < MAX_PATH / sizeof_WCHAR)
    (htitle : (wcs title).length < STRSAFE_MAX_CCH / sizeof_WCHAR)
    (hlen : (wcs env.GetWindowsDirectoryW.2).length ≤ (wcs title).length)
    (hbegins : ((wcs title).take (wcs env.GetWindowsDirectoryW.2).length).map env.upcase
      = (wcs env.GetWindowsDirectoryW.2).map env.upcase) :
    translatedString env title true true = some (wstr "%SystemRoot%"
      ++ ((wcs title).drop (wcs env.GetWindowsDirectoryW.2).length).map substituteChar) := by
  have hu := (beginsWithRoot_iff env title).mpr ⟨hlen, hbegins⟩
  have := translatedString_unexpand env title true true hnew hdir hbyte hroot htitle
    (by rw [Bool.and_assoc, hu]; rfl)
  rw [this]
  have hs : substitute true = substituteChar := funext substitute_true
  rw [hs]
  rfl

set_option maxRecDepth 100000 in
theorem translateTitle_unexpand_substitute_witness :
    translatedString (envWithRoot windowsRoot) cmdTitle true true
      = some (wstr "%SystemRoot%_System32_cmd.exe") :=
  (translateTitle_unexpand_substitute (envWithRoot windowsRoot) cmdTitle rfl (by decide)
    (fun _ => rfl) (by decide) (by decide) (by decide) (by decide)).trans (by decide)

set_option maxRecDepth 100000 in
/-- C4: the code at a system root of 130 code units. Both allocations succeed,
`GetWindowsDirectoryW` returns 130 and the root, which fits the `MAX_PATH` code
units of `pwszSysRoot` (lines 281 and 284) with its terminator, and the title
begins with the root; the claim gives `%SystemRoot%` followed by the rest of the
title. The routine returns `nullptr`: line 287 hands `MAX_PATH` to
`StringCbLengthW`, which takes it as a number of bytes, 130 code units with the
terminator, so the length of the root is not obtained; with the size of the
buffer in bytes it is. -/
theorem translateTitle_unexpand_long_root :
    (∀ cb, (envWithRoot longRoot).newBYTE cb = true) ∧
    (envWithRoot longRoot).newSysRoot = true ∧
    (envWithRoot longRoot).GetWindowsDirectoryW.1 = 130 ∧
    wcs (envWithRoot longRoot).GetWindowsDirectoryW.2 = longRoot ∧
    longRoot.length + 1 ≤ MAX_PATH ∧
    StringCbLengthW (envWithRoot longRoot).GetWindowsDirectoryW.2 MAX_PATH = none ∧
    StringCbLengthW (envWithRoot longRoot).GetWindowsDirectoryW.2 (MAX_PATH * sizeof_WCHAR)
      = some 260 ∧
    longRoot.length ≤ (wcs longRootTitle).length ∧
    ((wcs longRootTitle).take longRoot.length).map (envWithRoot longRoot).upcase
      = longRoot.map (envWithRoot longRoot).upcase ∧
    translatedString (envWithRoot longRoot) longRootTitle true true = none :=
  ⟨fun _ => rfl, by decide⟩

/-- What `TranslateConsoleTitle(title, fUnexpand, TRUE)` returns below the
limits of its two length measurements when the prefix is kept: when both
allocations succeed, `GetWindowsDirectoryW`
returns a system root of fewer than 130 code units and the title has fewer than
`STRSAFE_MAX_CCH / sizeof(WCHAR)` code units, and `fUnexpand` is false or the
title does not begin with the system root (it is shorter, or its first code
units differ from the root ignoring case), then
`TranslateConsoleTitle(title, fUnexpand, TRUE)` returns a string as long as the
title, with every backslash replaced by `_` and every other code unit
unchanged. -/
theorem translateTitle_substitute_only (env : TitleEnv) (title : List Nat) (fUnexpand : Bool)
    (hnew : env.newSysRoot = true) (hdir : env.GetWindowsDirectoryW.1 ≠ 0)
    (hbyte : ∀ cb, env.newBYTE cb = true)
    (hroot : (wcs env.GetWindowsDirectoryW.2).length < MAX_PATH / sizeof_WCHAR)
    (htitle : (wcs title).length < STRSAFE_MAX_CCH / sizeof_WCHAR)
    (hkeep : fUnexpand = false ∨
      ¬ ((wcs env.GetWindowsDirectoryW.2).length ≤ (wcs title).length ∧
        ((wcs title).take (wcs env.GetWindowsDirectoryW.2).length).map env.upcase
          = (wcs env.GetWindowsDirectoryW.2).map env.upcase)) :
    translatedString env title fUnexpand true = some ((wcs title).map substituteChar) ∧
      ((wcs title).map substituteChar).length = (wcs title).length := by
  refine ⟨?_, List.length_map _ _⟩
  have hu : (fUnexpand &&
      decide ((wcs title).length ≥ (wcs env.GetWindowsDirectoryW.2).length) &&
        (CompareStringOrdinal env.upcase true
            (title.take (wcs env.GetWindowsDirectoryW.2).length)
            (env.GetWindowsDirectoryW.2.take (wcs env.GetWindowsDirectoryW.2).length)
          == CSTR_EQUAL)) = false := by
    rw [Bool.and_assoc]
    rcases hkeep with h | h
    · rw [h]
      rfl
    · rw [← beginsWithRoot_iff, Bool.not_eq_true] at h
      rw [h, Bool.and_false]
  rw [translatedString_keep env title fUnexpand true hnew hdir hbyte hroot htitle hu]
  have hs : substitute true = substituteChar := funext substitute_true
  rw [hs]

set_option maxRecDepth 100000 in
theorem translateTitle_substitute_only_witness :
    translatedString (envWithRoot windowsRoot) cmdTitle false true
        = some (wstr "C:_Windows_System32_cmd.exe") ∧
      (wstr "C:_Windows_System32_cmd.exe").length = (wcs cmdTitle).length :=
  (translateTitle_substitute_only (envWithRoot windowsRoot) cmdTitle false rfl (by decide)
    (fun _ => rfl) (by decide) (by decide) (Or.inl rfl)).imp
    (fun h => h.trans (by decide)) (fun _ => by decide)

set_option maxRecDepth 100000 in
/-- C5: the code at a system root of 130 code units and `fUnexpand` false. Both
allocations succeed and `GetWindowsDirectoryW` returns 130 and the root, which
fits the `MAX_PATH` code units of `pwszSysRoot` with its terminator; the claim
gives the title of the routine's description with `_` for every backslash, and
the root plays no part in that. The routine returns `nullptr`, for the reason
of C4: line 287 hands `MAX_PATH` to `StringCbLengthW` as a number of bytes. -/
theorem translateTitle_substitute_only_long_root :
    (∀ cb, (envWithRoot longRoot).newBYTE cb = true) ∧
    (envWithRoot longRoot).newSysRoot = true ∧
    (envWithRoot longRoot).GetWindowsDirectoryW.1 = 130 ∧
    wcs (envWithRoot longRoot).GetWindowsDirectoryW.2 = longRoot ∧
    longRoot.length + 1 ≤ MAX_PATH ∧
    StringCbLengthW (envWithRoot longRoot).GetWindowsDirectoryW.2 MAX_PATH = none ∧
    (wcs cmdTitle).map substituteChar = wstr "C:_Windows_System32_cmd.exe" ∧
    translatedString (envWithRoot longRoot) cmdTitle false true = none :=
  ⟨fun _ => rfl, by decide⟩

/-! ## Properties of `SetUpConsole` -/

theorem ApplyStartupInfo_get (present : Settings → StartupField → Bool)
    (s startup : Settings) (f : StartupField) :
    (s.ApplyStartupInfo present startup).get f
      = if present startup f then startup.get f else s.get f := by
  cases f <;> simp only [Settings.ApplyStartupInfo, Settings.get] <;> split_ifs <;> rfl

theorem SetLaunchFaceName_get (s : Settings) (name : Option (List Nat)) (f : StartupField) :
    (s.SetLaunchFaceName name).get f = s.get f := by
  cases f <;> rfl

theorem SetUpConsole_settings (env : SetUpEnv) (gci startup : Settings) (TitleLength : Nat)
    (Title CurDir AppName : List Nat) :
    (SetUpConsole env gci startup TitleLength Title CurDir AppName).settings =
      let s := (lowerLayers env gci startup TitleLength Title CurDir AppName).1.ApplyStartupInfo
        env.present startup
      if s.IsFaceNameSet then s.SetLaunchFaceName s.GetFaceName else s := by
  unfold SetUpConsole
  simp only
  split_ifs <;> rfl

/-- C6: for every field of the startup information, the configuration
`SetUpConsole` leaves in the global settings has the value of the startup
information when the startup information defines the field, whatever the
registry defaults, the link and the registry settings of the title set, and the
value of those lower layers when it does not. (`ApplyStartupInfo`, `Validate`
and `SetLaunchFaceName` are as the design document describes them.) -/
theorem setUpConsole_startupInfo_precedence (env : SetUpEnv) (gci pStartupSettings : Settings)
    (TitleLength : Nat) (Title CurDir AppName : List Nat) (f : StartupField) :
    (env.present pStartupSettings f = true →
      (SetUpConsole env gci pStartupSettings TitleLength Title CurDir AppName).settings.get f
        = pStartupSettings.get f) ∧
    (env.present pStartupSettings f = false →
      (SetUpConsole env gci pStartupSettings TitleLength Title CurDir AppName).settings.get f
        = (lowerLayers env gci pStartupSettings TitleLength Title CurDir AppName).1.get f) := by
  rw [SetUpConsole_settings]
  simp only
  constructor
  · intro h
    split_ifs
    · rw [SetLaunchFaceName_get, ApplyStartupInfo_get, if_pos h]
    · rw [ApplyStartupInfo_get, if_pos h]
  · intro h
    split_ifs
    · rw [SetLaunchFaceName_get, ApplyStartupInfo_get, h]
      rfl
    · rw [ApplyStartupInfo_get, h]
      rfl

/-- The fill attribute is set by the global defaults (`0x1F`), by the settings of
the title (`0x2F`) and by the startup information (`0x4E`): the last one wins;
the window size, which the startup information does not define, keeps the
value of the lower layers. -/
theorem setUpConsole_startupInfo_precedence_witness :
    (lowerLayers sampleSetUpEnv sampleDefaults sampleStartupInfo 0 [] [] []).1.get .FillAttribute
        = .scalar 47 ∧
      (SetUpConsole sampleSetUpEnv sampleDefaults sampleStartupInfo 0 [] [] []).settings.get
        .FillAttribute = .scalar 78 ∧
      (SetUpConsole sampleSetUpEnv sampleDefaults sampleStartupInfo 0 [] [] []).settings.get
        .WindowSize = .coord ⟨80, 25⟩ :=
  ⟨by decide,
    ((setUpConsole_startupInfo_precedence sampleSetUpEnv sampleDefaults sampleStartupInfo 0 [] []
      [] .FillAttribute).1 (by decide)).trans (by decide),
    ((setUpConsole_startupInfo_precedence sampleSetUpEnv sampleDefaults sampleStartupInfo 0 [] []
      [] .WindowSize).2 (by decide)).trans (by decide)⟩

/-! ## Properties of `ConsoleIoThread` -/

theorem FAILED_disconnected : FAILED (HRESULT_FROM_WIN32 ERROR_PIPE_NOT_CONNECTED) = true := by
  decide

theorem ioLoop_exit (tr : Bool) (rs : List ReadIoResult) (R : Option Nat) :
    ioLoop tr rs R true = [.Return 0] := by
  cases rs <;> rfl

theorem releaseReply_flags (R : Option Nat) :
    ∀ e ∈ releaseReply R, e.isReadIo = false ∧ e.isTerminateProcess = false ∧
      e.isServiceIoOperation = false := by
  cases R <;> simp [releaseReply, IoEvent.isReadIo, IoEvent.isTerminateProcess,
    IoEvent.isServiceIoOperation]

theorem countP_releaseReply (R : Option Nat) :
    (releaseReply R).countP IoEvent.isReadIo = 0 := by
  cases R <;> simp [releaseReply, IoEvent.isReadIo]

/-- One pass of the loop for a result that is not the disconnection: the events
of the pass up to the call of `ReadIo`, one more event, and the loop again. -/
theorem ioLoop_cons_of_ne (tr : Bool) (r : ReadIoResult) (rs : List ReadIoResult)
    (R : Option Nat) (h : r.hr ≠ HRESULT_FROM_WIN32 ERROR_PIPE_NOT_CONNECTED) :
    ioLoop tr (r :: rs) R false = releaseReply R ++ [.ReadIo R] ++
      (if FAILED r.hr then IoEvent.RIPMSG1 r.hr :: ioLoop tr rs none false
        else .ServiceIoOperation :: ioLoop tr rs r.ReplyMsg false) := by
  rw [ioLoop]
  simp only [h, if_false]

theorem ioLoop_cons_disconnected (tr : Bool) (r : ReadIoResult) (rs : List ReadIoResult)
    (R : Option Nat) (h : r.hr = HRESULT_FROM_WIN32 ERROR_PIPE_NOT_CONNECTED) :
    ioLoop tr (r :: rs) R false = releaseReply R ++ [.ReadIo R] ++
      [.TerminateProcess STATUS_SUCCESS] ++
      (if tr then [IoEvent.RIPMSG1 r.hr, .Return 0] else []) := by
  rw [ioLoop]
  have hf : FAILED r.hr = true := by rw [h]; exact FAILED_disconnected
  simp only [hf, if_true, ioLoop_exit]
  rw [if_pos h]
  cases tr <;> simp

/-- The events of the passes for results without a disconnection, followed by
the rest of the loop. -/
theorem ioLoop_append (tr : Bool) (pre rest : List ReadIoResult) (R : Option Nat)
    (hpre : ∀ x ∈ pre, x.hr ≠ HRESULT_FROM_WIN32 ERROR_PIPE_NOT_CONNECTED) :
    ∃ (passes : List IoEvent) (R1 : Option Nat),
      ioLoop tr (pre ++ rest) R false = passes ++ ioLoop tr rest R1 false ∧
      (∀ e ∈ passes, e.isTerminateProcess = false) ∧
      passes.countP IoEvent.isReadIo = pre.length ∧
      (∀ x, pre.getLast? = some x → FAILED x.hr = true → R1 = none) ∧
      (pre = [] → R1 = R) := by
  induction pre generalizing R with
  | nil => exact ⟨[], R, by simp, by simp, by simp, by simp, fun _ => rfl⟩
  | cons r pre ih =>
    have hr := hpre r (List.mem_cons_self _ _)
    have hrest : ∀ x ∈ pre, x.hr ≠ HRESULT_FROM_WIN32 ERROR_PIPE_NOT_CONNECTED :=
      fun x hx => hpre x (List.mem_cons_of_mem _ hx)
    rw [List.cons_append, ioLoop_cons_of_ne tr r _ R hr]
    cases hf : FAILED r.hr
    · obtain ⟨passes, R1, heq, hterm, hcount, hlast, hnil⟩ := ih r.ReplyMsg hrest
      refine ⟨releaseReply R ++ [.ReadIo R] ++ .ServiceIoOperation :: passes, R1, ?_, ?_, ?_, ?_,
        by simp⟩
      · simp [heq]
      · intro e he
        simp only [List.mem_append, List.mem_cons, List.mem_singleton, List.not_mem_nil,
          or_false] at he
        rcases he with (he | he) | he | he
        · exact (releaseReply_flags R e he).2.1
        · subst he; rfl
        · subst he; rfl
        · exact hterm e he
      · simp [List.countP_append, List.countP_cons, countP_releaseReply, hcount,
          IoEvent.isReadIo]
      · intro x hx hfx
        cases pre with
        | nil =>
          simp at hx
          subst hx
          rw [hf] at hfx
          exact absurd hfx (by simp)
        | cons y pre => exact hlast x (by simpa using hx) hfx
    · obtain ⟨passes, R1, heq, hterm, hcount, hlast, hnil⟩ := ih none hrest
      refine ⟨releaseReply R ++ [.ReadIo R] ++ .RIPMSG1 r.hr :: passes, R1, ?_, ?_, ?_, ?_,
        by simp⟩
      · simp [heq]
      · intro e he
        simp only [List.mem_append, List.mem_cons, List.mem_singleton, List.not_mem_nil,
          or_false] at he
        rcases he with (he | he) | he | he
        · exact (releaseReply_flags R e he).2.1
        · subst he; rfl
        · subst he; rfl
        · exact hterm e he
      · simp [List.countP_append, List.countP_cons, countP_releaseReply, hcount,
          IoEvent.isReadIo]
      · intro x hx hfx
        cases pre with
        | nil => exact hnil rfl
        | cons y pre => exact hlast x (by simpa using hx) hfx

theorem ioLoop_blocked_head (tr : Bool) (rs : List ReadIoResult) :
    ∃ t, ioLoop tr rs none false = IoEvent.ReadIo none :: t := by
  cases rs with
  | nil => exact ⟨[], rfl⟩
  | cons r rs =>
    rw [ioLoop]
    exact ⟨_, rfl⟩

theorem ioLoop_no_terminate (tr : Bool) (rs : List ReadIoResult) (R : Option Nat)
    (h : ∀ x ∈ rs, x.hr ≠ HRESULT_FROM_WIN32 ERROR_PIPE_NOT_CONNECTED) :
    ∀ e ∈ ioLoop tr rs R false, e.isTerminateProcess = false := by
  obtain ⟨passes, R1, heq, hterm, -, -, -⟩ := ioLoop_append tr rs [] R h
  rw [List.append_nil] at heq
  rw [heq]
  intro e he
  rcases List.mem_append.mp he with he | he
  · exact hterm e he
  · simp only [ioLoop, List.mem_append, List.mem_singleton] at he
    rcases he with he | he
    · exact (releaseReply_flags R1 e he).2.1
    · subst he; rfl

/-- C7: for every sequence of results of `ReadIo`, at the first one that is
`HRESULT_FROM_WIN32(ERROR_PIPE_NOT_CONNECTED)` the loop calls
`TerminateProcess` with `STATUS_SUCCESS`; this is the only call of
`TerminateProcess` in the run, it follows the call of `ReadIo` that got the
result (the calls of `ReadIo` before it are one per result so far), and after
it there is no call of `ReadIo` and none of `ServiceIoOperation`, whether
`TerminateProcess` returns or not. -/
theorem consoleIoThread_disconnect_exits_once (TerminateProcessReturns : Bool)
    (pre post : List ReadIoResult) (d : ReadIoResult)
    (hpre : ∀ x ∈ pre, x.hr ≠ HRESULT_FROM_WIN32 ERROR_PIPE_NOT_CONNECTED)
    (hd : d.hr = HRESULT_FROM_WIN32 ERROR_PIPE_NOT_CONNECTED) :
    ∃ before after : List IoEvent,
      ConsoleIoThread TerminateProcessReturns (pre ++ d :: post)
        = before ++ [.TerminateProcess STATUS_SUCCESS] ++ after ∧
      (∀ e ∈ before, e.isTerminateProcess = false) ∧
      before.countP IoEvent.isReadIo = pre.length + 1 ∧
      (∀ e ∈ after, e.isReadIo = false ∧ e.isServiceIoOperation = false ∧
        e.isTerminateProcess = false) ∧
      (ConsoleIoThread TerminateProcessReturns (pre ++ d :: post)).countP
        IoEvent.isTerminateProcess = 1 := by
  obtain ⟨passes, R1, heq, hterm, hcount, -, -⟩ :=
    ioLoop_append TerminateProcessReturns pre (d :: post) none hpre
  have hbefore : ∀ e ∈ passes ++ (releaseReply R1 ++ [IoEvent.ReadIo R1]),
      e.isTerminateProcess = false := by
    intro e he
    simp only [List.mem_append, List.mem_singleton] at he
    rcases he with he | he | he
    · exact hterm e he
    · exact (releaseReply_flags R1 e he).2.1
    · subst he; rfl
  have hafter : ∀ e ∈ (if TerminateProcessReturns then [IoEvent.RIPMSG1 d.hr, .Return 0] else []),
      e.isReadIo = false ∧ e.isServiceIoOperation = false ∧ e.isTerminateProcess = false := by
    cases TerminateProcessReturns <;>
      simp [IoEvent.isReadIo, IoEvent.isServiceIoOperation, IoEvent.isTerminateProcess]
  have hrun : ConsoleIoThread TerminateProcessReturns (pre ++ d :: post)
      = (passes ++ (releaseReply R1 ++ [IoEvent.ReadIo R1]))
        ++ [.TerminateProcess STATUS_SUCCESS]
        ++ (if TerminateProcessReturns then [IoEvent.RIPMSG1 d.hr, .Return 0] else []) := by
    unfold ConsoleIoThread
    rw [heq, ioLoop_cons_disconnected _ _ _ _ hd]
    simp only [List.append_assoc]
  refine ⟨passes ++ (releaseReply R1 ++ [.ReadIo R1]),
    if TerminateProcessReturns then [.RIPMSG1 d.hr, .Return 0] else [], hrun, hbefore, ?_,
    hafter, ?_⟩
  · simp [List.countP_append, countP_releaseReply, hcount, IoEvent.isReadIo]
  · have h1 : (passes ++ (releaseReply R1 ++ [IoEvent.ReadIo R1])).countP
        IoEvent.isTerminateProcess = 0 :=
      List.countP_eq_zero.mpr (fun e he => by simp [hbefore e he])
    have h2 : (if TerminateProcessReturns then [IoEvent.RIPMSG1 d.hr, .Return 0]
        else []).countP IoEvent.isTerminateProcess = 0 :=
      List.countP_eq_zero.mpr (fun e he => by simp [(hafter e he).2.2])
    rw [hrun, List.countP_append, List.countP_append, h1, h2]
    rfl

theorem consoleIoThread_disconnect_exits_once_witness :
    ∃ before after : List IoEvent,
      ConsoleIoThread false sampleResults
        = before ++ [.TerminateProcess STATUS_SUCCESS] ++ after ∧
      (∀ e ∈ before, e.isTerminateProcess = false) ∧
      before.countP IoEvent.isReadIo = 3 + 1 ∧
      (∀ e ∈ after, e.isReadIo = false ∧ e.isServiceIoOperation = false ∧
        e.isTerminateProcess = false) ∧
      (ConsoleIoThread false sampleResults).countP IoEvent.isTerminateProcess = 1 :=
  consoleIoThread_disconnect_exits_once false (sampleResults.take 3) (sampleResults.drop 4)
    ⟨-2147024663, none⟩ (by decide) (by decide)

/-- C8: for every result of `ReadIo` that is a failure other than
`HRESULT_FROM_WIN32(ERROR_PIPE_NOT_CONNECTED)`, the run goes on from the call of
`ReadIo` that got it with the warning `RIPMSG1` and then the loop itself with
`ReplyMsg` reset to `nullptr` and `fShouldExit` still false: no
`TerminateProcess` and no `ServiceIoOperation` for that pass, and the loop that
follows starts with a call of `ReadIo` without a reply, not with a release of
reply buffers. Moreover a run calls `TerminateProcess` only if some result was
the disconnection. -/
theorem consoleIoThread_transient_failure_continues (TerminateProcessReturns : Bool)
    (pre post : List ReadIoResult) (r : ReadIoResult)
    (hpre : ∀ x ∈ pre, x.hr ≠ HRESULT_FROM_WIN32 ERROR_PIPE_NOT_CONNECTED)
    (hfail : FAILED r.hr = true)
    (hne : r.hr ≠ HRESULT_FROM_WIN32 ERROR_PIPE_NOT_CONNECTED) :
    (∃ (before : List IoEvent) (ReplyMsg : Option Nat),
      ConsoleIoThread TerminateProcessReturns (pre ++ r :: post)
        = before ++ [.ReadIo ReplyMsg, .RIPMSG1 r.hr]
          ++ ioLoop TerminateProcessReturns post none false ∧
      (∀ e ∈ before, e.isTerminateProcess = false) ∧
      before.countP IoEvent.isReadIo = pre.length) ∧
    (∃ t, ioLoop TerminateProcessReturns post none false = IoEvent.ReadIo none :: t) ∧
    (∀ results : List ReadIoResult,
      (∃ e ∈ ConsoleIoThread TerminateProcessReturns results, e.isTerminateProcess = true) →
      ∃ x ∈ results, x.hr = HRESULT_FROM_WIN32 ERROR_PIPE_NOT_CONNECTED) := by
  refine ⟨?_, ioLoop_blocked_head _ _, ?_⟩
  · obtain ⟨passes, R1, heq, hterm, hcount, -, -⟩ :=
      ioLoop_append TerminateProcessReturns pre (r :: post) none hpre
    refine ⟨passes ++ releaseReply R1, R1, ?_, ?_, ?_⟩
    · unfold ConsoleIoThread
      rw [heq, ioLoop_cons_of_ne _ _ _ _ hne]
      simp [hfail]
    · intro e he
      rcases List.mem_append.mp he with he | he
      · exact hterm e he
      · exact (releaseReply_flags R1 e he).2.1
    · simp [List.countP_append, countP_releaseReply, hcount]
  · intro results hex
    by_contra hno
    obtain ⟨e, he, hte⟩ := hex
    have := ioLoop_no_terminate TerminateProcessReturns results none
      (fun x hx hxd => hno ⟨x, hx, hxd⟩) e he
    rw [this] at hte
    exact absurd hte (by simp)

theorem consoleIoThread_transient_failure_continues_witness :
    (∃ (before : List IoEvent) (ReplyMsg : Option Nat),
      ConsoleIoThread false sampleResults
        = before ++ [.ReadIo ReplyMsg, .RIPMSG1 (-2147467259)]
          ++ ioLoop false (sampleResults.drop 2) none false ∧
      (∀ e ∈ before, e.isTerminateProcess = false) ∧
      before.countP IoEvent.isReadIo = 1) ∧
    (∃ t, ioLoop false (sampleResults.drop 2) none false = IoEvent.ReadIo none :: t) ∧
    (∀ results : List ReadIoResult,
      (∃ e ∈ ConsoleIoThread false results, e.isTerminateProcess = true) →
      ∃ x ∈ results, x.hr = HRESULT_FROM_WIN32 ERROR_PIPE_NOT_CONNECTED) :=
  consoleIoThread_transient_failure_continues false (sampleResults.take 1)
    (sampleResults.drop 2) ⟨-2147467259, none⟩ (by decide) (by decide) (by decide)

/-! ## Properties of `ConsoleAllocateConsole` -/

/-- The run of `ConsoleAllocateConsole` that waits: `SetUpConsole` succeeded, the
window is visible and the thread was started. -/
theorem allocateConsole_of_started (env : AllocEnv) (p : CONSOLE_API_CONNECTINFO)
    (Flags tid Thread : Nat)
    (hset : NT_SUCCESS (env.SetUpConsole p.ConsoleInfo p.TitleLength p.Title p.CurDir p.AppName)
      = true)
    (hvis : p.WindowVisible ≠ 0) (hstart : env.Start = some Thread) :
    ConsoleAllocateConsole env p Flags tid =
      ⟨if !NT_SUCCESS env.ntstatusConsoleInputInitStatus then env.ntstatusConsoleInputInitStatus
          else STATUS_SUCCESS,
        [.LogApiCall, .SetUpConsole, .CreateConsoleInputThread, .Start, .UnlockConsole,
          .WaitInitEvent, .LockConsole, .CloseHandle Thread, .ReleaseInitEvent, .ReadInitStatus,
          .AllowUIAccess],
        Flags, env.GetThreadId⟩ := by
  unfold ConsoleAllocateConsole
  simp [hset, hvis, hstart]

theorem allocateConsole_of_setup_failed (env : AllocEnv) (p : CONSOLE_API_CONNECTINFO)
    (Flags tid : Nat)
    (hset : NT_SUCCESS (env.SetUpConsole p.ConsoleInfo p.TitleLength p.Title p.CurDir p.AppName)
      = false) :
    ConsoleAllocateConsole env p Flags tid =
      ⟨env.SetUpConsole p.ConsoleInfo p.TitleLength p.Title p.CurDir p.AppName,
        [.LogApiCall, .SetUpConsole], Flags, tid⟩ := by
  unfold ConsoleAllocateConsole
  simp [hset]

theorem allocateConsole_of_not_started (env : AllocEnv) (p : CONSOLE_API_CONNECTINFO)
    (Flags tid : Nat)
    (hset : NT_SUCCESS (env.SetUpConsole p.ConsoleInfo p.TitleLength p.Title p.CurDir p.AppName)
      = true)
    (hvis : p.WindowVisible ≠ 0) (hstart : env.Start = none) :
    ConsoleAllocateConsole env p Flags tid =
      ⟨STATUS_NO_MEMORY, [.LogApiCall, .SetUpConsole, .CreateConsoleInputThread, .Start],
        Flags, tid⟩ := by
  unfold ConsoleAllocateConsole
  simp [hset, hvis, hstart]

theorem allocateConsole_of_no_window (env : AllocEnv) (p : CONSOLE_API_CONNECTINFO)
    (Flags tid : Nat)
    (hset : NT_SUCCESS (env.SetUpConsole p.ConsoleInfo p.TitleLength p.Title p.CurDir p.AppName)
      = true)
    (hvis : p.WindowVisible = 0) :
    ConsoleAllocateConsole env p Flags tid =
      ⟨env.SetUpConsole p.ConsoleInfo p.TitleLength p.Title p.CurDir p.AppName,
        [.LogApiCall, .SetUpConsole], Flags ||| env.CONSOLE_NO_WINDOW, tid⟩ := by
  unfold ConsoleAllocateConsole
  simp [hset, hvis]

/-- C9: in a run of `ConsoleAllocateConsole` that waits on the init event
(`SetUpConsole` succeeded, `WindowVisible` is set, the thread was started) the
calls are, in order, some that touch neither the lock nor the event, then
`UnlockConsole`, the wait, `LockConsole`, and then calls that touch neither the
lock nor the event, among them the read of the status the worker reported: one
release directly before the wait and one acquisition directly after it. So,
entered with the lock held, the lock is not held at the wait and is held at
the end. In every other run there is no wait, no `UnlockConsole` and no
`LockConsole`. -/
theorem allocateConsole_lock_released_across_wait (env : AllocEnv)
    (p : CONSOLE_API_CONNECTINFO) (Flags tid : Nat) :
    ((NT_SUCCESS (env.SetUpConsole p.ConsoleInfo p.TitleLength p.Title p.CurDir p.AppName) = true ∧
        p.WindowVisible ≠ 0 ∧ env.Start.isSome = true) →
      ∃ before after : List AllocEvent,
        (ConsoleAllocateConsole env p Flags tid).events
          = before ++ [.UnlockConsole, .WaitInitEvent, .LockConsole] ++ after ∧
        (∀ e ∈ before, e.isLockCall = false) ∧ (∀ e ∈ after, e.isLockCall = false) ∧
        AllocEvent.ReadInitStatus ∈ after ∧
        heldAtWait true (ConsoleAllocateConsole env p Flags tid).events = [false] ∧
        lockAfter true (ConsoleAllocateConsole env p Flags tid).events = true) ∧
    (¬ (NT_SUCCESS (env.SetUpConsole p.ConsoleInfo p.TitleLength p.Title p.CurDir p.AppName) = true ∧
        p.WindowVisible ≠ 0 ∧ env.Start.isSome = true) →
      ∀ e ∈ (ConsoleAllocateConsole env p Flags tid).events, e.isLockCall = false) := by
  constructor
  · rintro ⟨hset, hvis, hstart⟩
    obtain ⟨Thread, hT⟩ := Option.isSome_iff_exists.mp hstart
    rw [allocateConsole_of_started env p Flags tid Thread hset hvis hT]
    refine ⟨[.LogApiCall, .SetUpConsole, .CreateConsoleInputThread, .Start],
      [.CloseHandle Thread, .ReleaseInitEvent, .ReadInitStatus, .AllowUIAccess], rfl, ?_, ?_, ?_,
      ?_, ?_⟩
    · decide
    · simp [AllocEvent.isLockCall]
    · simp
    · simp [heldAtWait, lockStep]
    · simp [lockAfter, lockStep]
  · intro hnot
    cases hset : NT_SUCCESS
      (env.SetUpConsole p.ConsoleInfo p.TitleLength p.Title p.CurDir p.AppName)
    · rw [allocateConsole_of_setup_failed env p Flags tid hset]
      simp [AllocEvent.isLockCall]
    · by_cases hvis : p.WindowVisible = 0
      · rw [allocateConsole_of_no_window env p Flags tid hset hvis]
        simp [AllocEvent.isLockCall]
      · cases hstart : env.Start with
        | none =>
          rw [allocateConsole_of_not_started env p Flags tid hset hvis hstart]
          simp [AllocEvent.isLockCall]
        | some Thread =>
          exact absurd ⟨hset, hvis, by rw [hstart]; rfl⟩ hnot

theorem allocateConsole_lock_released_across_wait_witness :
    ∃ before after : List AllocEvent,
      (ConsoleAllocateConsole sampleAllocEnv visibleRequest 0 0).events
        = before ++ [.UnlockConsole, .WaitInitEvent, .LockConsole] ++ after ∧
      (∀ e ∈ before, e.isLockCall = false) ∧ (∀ e ∈ after, e.isLockCall = false) ∧
      AllocEvent.ReadInitStatus ∈ after ∧
      heldAtWait true (ConsoleAllocateConsole sampleAllocEnv visibleRequest 0 0).events
        = [false] ∧
      lockAfter true (ConsoleAllocateConsole sampleAllocEnv visibleRequest 0 0).events = true :=
  (allocateConsole_lock_released_across_wait sampleAllocEnv visibleRequest 0 0).1
    ⟨by decide, by decide, by decide⟩

/-- C10: when `SetUpConsole` fails, `ConsoleAllocateConsole` returns its status
unchanged, creates and starts no thread, does not wait and leaves `gci->Flags`
as it was; when it succeeds, `WindowVisible` is set and the thread is started,
the returned status is the one the worker reported if that is not a success,
and `STATUS_SUCCESS` if it is. -/
theorem allocateConsole_status (env : AllocEnv) (p : CONSOLE_API_CONNECTINFO)
    (Flags tid : Nat) :
    (NT_SUCCESS (env.SetUpConsole p.ConsoleInfo p.TitleLength p.Title p.CurDir p.AppName) = false →
      (ConsoleAllocateConsole env p Flags tid).Status
          = env.SetUpConsole p.ConsoleInfo p.TitleLength p.Title p.CurDir p.AppName ∧
        AllocEvent.CreateConsoleInputThread ∉ (ConsoleAllocateConsole env p Flags tid).events ∧
        AllocEvent.Start ∉ (ConsoleAllocateConsole env p Flags tid).events ∧
        AllocEvent.WaitInitEvent ∉ (ConsoleAllocateConsole env p Flags tid).events ∧
        (ConsoleAllocateConsole env p Flags tid).Flags = Flags) ∧
    ((NT_SUCCESS (env.SetUpConsole p.ConsoleInfo p.TitleLength p.Title p.CurDir p.AppName) = true ∧
        p.WindowVisible ≠ 0 ∧ env.Start.isSome = true) →
      (NT_SUCCESS env.ntstatusConsoleInputInitStatus = false →
        (ConsoleAllocateConsole env p Flags tid).Status = env.ntstatusConsoleInputInitStatus) ∧
      (NT_SUCCESS env.ntstatusConsoleInputInitStatus = true →
        (ConsoleAllocateConsole env p Flags tid).Status = STATUS_SUCCESS)) := by
  constructor
  · intro hset
    rw [allocateConsole_of_setup_failed env p Flags tid hset]
    simp
  · rintro ⟨hset, hvis, hstart⟩
    obtain ⟨Thread, hT⟩ := Option.isSome_iff_exists.mp hstart
    rw [allocateConsole_of_started env p Flags tid Thread hset hvis hT]
    constructor
    · intro h
      simp [h]
    · intro h
      simp [h]

/-- The worker reports `STATUS_NO_MEMORY`, which is what the routine returns. -/
theorem allocateConsole_status_witness :
    (ConsoleAllocateConsole workerFailsEnv visibleRequest 0 0).Status = STATUS_NO_MEMORY :=
  ((allocateConsole_status workerFailsEnv visibleRequest 0 0).2
    ⟨by decide, by decide, by decide⟩).1 (by decide)

/-! ## `AllowUIAccess` in `ConsoleAllocateConsole` -/

/-- C11 as stated fails: `SetUpConsole` succeeds, `WindowVisible` is set, the
thread is started and the worker reports `STATUS_NO_MEMORY`, which is not a
success; `ConsoleAllocateConsole` returns that status and has called
`AllowUIAccess`. -/
theorem allocateConsole_allowUIAccess_on_worker_failure :
    NT_SUCCESS (workerFailsEnv.SetUpConsole visibleRequest.ConsoleInfo visibleRequest.TitleLength
      visibleRequest.Title visibleRequest.CurDir visibleRequest.AppName) = true ∧
    visibleRequest.WindowVisible ≠ 0 ∧
    workerFailsEnv.Start = some 4 ∧
    NT_SUCCESS workerFailsEnv.ntstatusConsoleInputInitStatus = false ∧
    (ConsoleAllocateConsole workerFailsEnv visibleRequest 0 0).Status = STATUS_NO_MEMORY ∧
    AllocEvent.AllowUIAccess ∈ (ConsoleAllocateConsole workerFailsEnv visibleRequest 0 0).events := by
  decide

/-- C11, as the code has it: `ConsoleAllocateConsole` calls `AllowUIAccess`
exactly when `SetUpConsole` succeeded, `WindowVisible` is set and the input
thread was started, whatever status the worker reports, and then it calls it
once, as its last call. It does not call it when `SetUpConsole` failed, when
`WindowVisible` is false or when the thread could not be started. -/
theorem allocateConsole_allowUIAccess (env : AllocEnv) (p : CONSOLE_API_CONNECTINFO)
    (Flags tid : Nat) :
    ((NT_SUCCESS (env.SetUpConsole p.ConsoleInfo p.TitleLength p.Title p.CurDir p.AppName) = true ∧
        p.WindowVisible ≠ 0 ∧ env.Start.isSome = true) →
      (ConsoleAllocateConsole env p Flags tid).events.count .AllowUIAccess = 1 ∧
      (ConsoleAllocateConsole env p Flags tid).events.getLast? = some .AllowUIAccess) ∧
    (¬ (NT_SUCCESS (env.SetUpConsole p.ConsoleInfo p.TitleLength p.Title p.CurDir p.AppName) = true ∧
        p.WindowVisible ≠ 0 ∧ env.Start.isSome = true) →
      AllocEvent.AllowUIAccess ∉ (ConsoleAllocateConsole env p Flags tid).events) := by
  constructor
  · rintro ⟨hset, hvis, hstart⟩
    obtain ⟨Thread, hT⟩ := Option.isSome_iff_exists.mp hstart
    rw [allocateConsole_of_started env p Flags tid Thread hset hvis hT]
    constructor
    · simp [List.count_cons]
    · simp
  · intro hnot
    cases hset : NT_SUCCESS
      (env.SetUpConsole p.ConsoleInfo p.TitleLength p.Title p.CurDir p.AppName)
    · rw [allocateConsole_of_setup_failed env p Flags tid hset]
      simp
    · by_cases hvis : p.WindowVisible = 0
      · rw [allocateConsole_of_no_window env p Flags tid hset hvis]
        simp
      · cases hstart : env.Start with
        | none =>
          rw [allocateConsole_of_not_started env p Flags tid hset hvis hstart]
          simp
        | some Thread =>
          exact absurd ⟨hset, hvis, by rw [hstart]; rfl⟩ hnot

/-- With a worker that reports success the call is made once; without a window,
or without a thread, it is not made. -/
theorem allocateConsole_allowUIAccess_witness :
    ((ConsoleAllocateConsole sampleAllocEnv visibleRequest 0 0).events.count .AllowUIAccess = 1 ∧
      (ConsoleAllocateConsole sampleAllocEnv visibleRequest 0 0).events.getLast?
        = some .AllowUIAccess) ∧
    AllocEvent.AllowUIAccess ∉ (ConsoleAllocateConsole sampleAllocEnv hiddenRequest 0 0).events ∧
    AllocEvent.AllowUIAccess ∉ (ConsoleAllocateConsole noThreadEnv visibleRequest 0 0).events :=
  ⟨(allocateConsole_allowUIAccess sampleAllocEnv visibleRequest 0 0).1
      ⟨by decide, by decide, by decide⟩,
    (allocateConsole_allowUIAccess sampleAllocEnv hiddenRequest 0 0).2 (by decide),
    (allocateConsole_allowUIAccess noThreadEnv visibleRequest 0 0).2 (by decide)⟩

/-! ## What `ConsoleInitializeConnectInfo` stores on success -/

theorem memmove_eq_src (dst src : List Nat) (n : Nat) (hs : src.length = n)
    (hd : dst.length = n) : memmove dst src n = src := by
  unfold memmove
  rw [List.take_of_length_le (by omega), List.drop_of_length_le (by omega), List.append_nil]

/-- The connection information does not depend on `IconId`. -/
theorem connectInfo_IconId_unused (L : MsgLayout) (conv : HRESULT → NTSTATUS) (hr : HRESULT)
    (Data : CONSOLE_SERVER_MSG) (Cac : CONSOLE_API_CONNECTINFO) (v : Nat) :
    ConsoleInitializeConnectInfo L conv (hr, { Data with IconId := v }) Cac
      = ConsoleInitializeConnectInfo L conv (hr, Data) Cac := rfl

/-- C12: when `ConsoleInitializeConnectInfo` returns `STATUS_SUCCESS`, the
connection information holds the payload field for field: the seven settings,
`ProcessGroupId`, `ConsoleApp`, `WindowVisible`, the three declared lengths,
and all bytes of the three buffers (payload and connection information have
buffers of the declared size), those behind the terminator too. `IconId` goes
nowhere: the result is the same for every value of it. -/
theorem connectInfo_success_copies_payload (L : MsgLayout)
    (NTSTATUS_FROM_HRESULT : HRESULT → NTSTATUS) (hr : HRESULT) (Data : CONSOLE_SERVER_MSG)
    (Cac : CONSOLE_API_CONNECTINFO) (hData : Data.WellSized L) (hCac : Cac.WellSized L)
    (hok : (ConsoleInitializeConnectInfo L NTSTATUS_FROM_HRESULT (hr, Data) Cac).Status
      = STATUS_SUCCESS) :
    (ConsoleInitializeConnectInfo L NTSTATUS_FROM_HRESULT (hr, Data) Cac).Cac =
      { ConsoleInfo :=
          { Cac.ConsoleInfo with
            HotKey := Data.HotKey
            StartupFlags := Data.StartupFlags
            FillAttribute := Data.FillAttribute
            ShowWindow := Data.ShowWindow
            ScreenBufferSize := Data.ScreenBufferSize
            WindowSize := Data.WindowSize
            WindowOrigin := Data.WindowOrigin }
        ProcessGroupId := Data.ProcessGroupId
        ConsoleApp := Data.ConsoleApp
        WindowVisible := Data.WindowVisible
        TitleLength := Data.TitleLength
        Title := Data.Title
        AppNameLength := Data.ApplicationNameLength
        AppName := Data.ApplicationName
        CurDirLength := Data.CurrentDirectoryLength
        CurDir := Data.CurrentDirectory } ∧
    ∀ v : Nat,
      (ConsoleInitializeConnectInfo L NTSTATUS_FROM_HRESULT (hr, { Data with IconId := v })
        Cac).Cac = (ConsoleInitializeConnectInfo L NTSTATUS_FROM_HRESULT (hr, Data) Cac).Cac := by
  refine ⟨?_, fun v => by rw [connectInfo_IconId_unused]⟩
  cases h1 : NT_SUCCESS (NTSTATUS_FROM_HRESULT hr)
  · rw [connectInfo_of_read_failed L _ (hr, Data) Cac h1] at hok
    simp only at hok
    rw [hok] at h1
    exact absurd h1 (by decide)
  · cases h2 : (validationFails L Data).1
    · rw [connectInfo_of_valid L _ (hr, Data) Cac h1 h2]
      obtain ⟨c1, c2, c3⟩ := hCac
      have d1 := hData .ApplicationName
      have d2 := hData .Title
      have d3 := hData .CurrentDirectory
      simp only [CONSOLE_SERVER_MSG.buf] at d1 d2 d3
      simp only [initializeConnectInfo, Settings.SetHotKey, Settings.SetStartupFlags,
        Settings.SetFillAttribute, Settings.SetShowWindow, Settings.SetScreenBufferSize,
        Settings.SetWindowSize, Settings.SetWindowOrigin, memmove_eq_src _ _ _ d1 c1,
        memmove_eq_src _ _ _ d2 c2, memmove_eq_src _ _ _ d3 c3]
    · rw [connectInfo_of_invalid L _ (hr, Data) Cac h1 h2] at hok
      simp only at hok
      exact absurd hok (by decide)

theorem connectInfo_success_copies_payload_witness :
    (ConsoleInitializeConnectInfo sampleLayout id (0, payloadTrailing) sampleCac).Cac =
      { ConsoleInfo := ⟨2, 3, 4, 5, ⟨80, 25⟩, ⟨80, 25⟩, ⟨0, 0⟩, none, none⟩
        ProcessGroupId := 6
        ConsoleApp := 1
        WindowVisible := 1
        TitleLength := 0
        Title := [0, 0, 88, 89]
        AppNameLength := 2
        AppName := [65, 0, 0, 0]
        CurDirLength := 2
        CurDir := [67, 0, 0, 0] } :=
  (connectInfo_success_copies_payload sampleLayout id 0 payloadTrailing sampleCac
    (fun b => by cases b <;> decide) ⟨by decide, by decide, by decide⟩ (by decide)).1

/-! ## The buffer of `TranslateConsoleTitle` -/

theorem StringCbLengthW_some (psz : List Nat) (cbMax cb : Nat)
    (h : StringCbLengthW psz cbMax = some cb) :
    (wcs psz).length < cbMax / sizeof_WCHAR ∧ cb = (wcs psz).length * sizeof_WCHAR := by
  unfold StringCbLengthW at h
  simp only at h
  split_ifs at h with h1 h2
  exact ⟨h2, (Option.some.inj h).symm⟩

/-- A returned buffer means that every guard of the routine was passed; the
routine then returns the same buffer when every allocation succeeds. -/
theorem TranslateConsoleTitle_some (env : TitleEnv) (title : List Nat) (fU fS : Bool)
    (t : TranslatedTitle) (h : TranslateConsoleTitle env title fU fS = some t) :
    env.newSysRoot = true ∧ env.GetWindowsDirectoryW.1 ≠ 0 ∧
      (wcs env.GetWindowsDirectoryW.2).length < MAX_PATH / sizeof_WCHAR ∧
      (wcs title).length < STRSAFE_MAX_CCH / sizeof_WCHAR ∧
      TranslateConsoleTitle { env with newBYTE := fun _ => true } title fU fS = some t := by
  unfold TranslateConsoleTitle at h ⊢
  cases hn : env.newSysRoot
  · simp [hn] at h
  · by_cases hd : env.GetWindowsDirectoryW.1 = 0
    · simp [hn, hd] at h
    · cases h1 : StringCbLengthW title STRSAFE_MAX_CCH with
      | none => simp [hn, hd, h1] at h
      | some cbT =>
        cases h2 : StringCbLengthW env.GetWindowsDirectoryW.2 MAX_PATH with
        | none => simp [hn, hd, h1, h2] at h
        | some cbR =>
          refine ⟨rfl, hd, (StringCbLengthW_some _ _ _ h2).1, (StringCbLengthW_some _ _ _ h1).1, ?_⟩
          simp only [hn, hd, h1, h2, Bool.not_true, Bool.false_eq_true, if_false] at h ⊢
          split_ifs at h ⊢ <;> exact h

theorem copyStores_index (n i : Nat) (src : List Nat) :
    ∀ s ∈ copyStores n i src, s.index < i + n := by
  induction n generalizing i src with
  | zero => simp [copyStores]
  | succ n ih =>
    cases src with
    | nil => simp [copyStores]
    | cons c src =>
      intro s hs
      simp only [copyStores, List.mem_cons] at hs
      rcases hs with hs | hs
      · subst hs
        simp
      · have := ih (i + 1) src s hs
        omega

/-- Every store of `StringCbCopy` is inside the destination. -/
theorem StringCbCopy_index (cbDest : Nat) (src : List Nat) :
    ∀ s ∈ StringCbCopy cbDest src, s.index < cbDest / sizeof_WCHAR := by
  intro s hs
  unfold StringCbCopy at hs
  simp only at hs
  have hlen := copyStores_length (cbDest / sizeof_WCHAR) 0 src
  split_ifs at hs with h0 he
  · simp at hs
  · rcases List.mem_append.mp hs with hs | hs
    · have := copyStores_index _ _ _ s hs
      omega
    · simp only [List.mem_singleton] at hs
      subst hs
      simp only
      omega
  · rcases List.mem_append.mp hs with hs | hs
    · have := copyStores_index _ _ _ s hs
      omega
    · simp only [List.mem_singleton] at hs
      subst hs
      simp only
      rw [hlen] at he ⊢
      omega

/-- The copy of the token makes at least one store. -/
theorem StringCbCopy_ne_nil (cbDest : Nat) (src : List Nat) (h1 : 0 < cbDest / sizeof_WCHAR)
    (h2 : cbDest / sizeof_WCHAR ≤ STRSAFE_MAX_CCH) : StringCbCopy cbDest src ≠ [] := by
  unfold StringCbCopy
  have : ¬ (cbDest / sizeof_WCHAR = 0 ∨ cbDest / sizeof_WCHAR > STRSAFE_MAX_CCH) := by omega
  simp [this]

theorem storesAt_index (q : Nat) (l : List Nat) :
    ∀ s ∈ storesAt q l, q ≤ s.index ∧ s.index < q + l.length := by
  induction l generalizing q with
  | nil => simp [storesAt]
  | cons c l ih =>
    intro s hs
    simp only [storesAt, List.mem_cons] at hs
    rcases hs with hs | hs
    · subst hs
      simp
    · have := ih (q + 1) s hs
      simp only [List.length_cons]
      omega

theorem storesAt_length (q : Nat) (l : List Nat) : (storesAt q l).length = l.length := by
  induction l generalizing q with
  | nil => rfl
  | cons c l ih => simp [storesAt, ih]

theorem storesAt_getLast (q : Nat) (l : List Nat) (c : Nat) :
    (storesAt q (l ++ [c])).getLast? = some ⟨q + l.length, c⟩ := by
  rw [storesAt_append]
  simp [storesAt]

theorem prefixReplaced_le (env : TitleEnv) (title : List Nat) (fU : Bool)
    (h : prefixReplaced env title fU = true) :
    (wcs env.GetWindowsDirectoryW.2).length ≤ (wcs title).length := by
  unfold prefixReplaced at h
  simp only [Bool.and_eq_true, decide_eq_true_eq] at h
  exact h.1.2

theorem remainingTitle_length (env : TitleEnv) (title : List Nat) (fU : Bool) :
    (remainingTitle env title fU).length = (wcs title).length
      - (if prefixReplaced env title fU then (wcs env.GetWindowsDirectoryW.2).length else 0) := by
  unfold remainingTitle
  rw [List.length_drop]

/-- The buffer a call of `TranslateConsoleTitle` returns: its size, its first
contents and its stores, in terms of whether the prefix is replaced and of the
part of the title that is copied. -/
theorem TranslateConsoleTitle_some_eq (env : TitleEnv) (title : List Nat) (fU fS : Bool)
    (t : TranslatedTitle) (h : TranslateConsoleTitle env title fU fS = some t) :
    t.cbTranslatedConsoleTitle
        = (if prefixReplaced env title fU then SYSTEM_ROOT_LENGTH else 0)
          + (remainingTitle env title fU).length * sizeof_WCHAR + sizeof_WCHAR ∧
      t.initial = (List.range (t.cbTranslatedConsoleTitle / sizeof_WCHAR)).map env.fresh ∧
      t.stores = StringCbCopy t.cbTranslatedConsoleTitle SYSTEM_ROOT
        ++ storesAt ((if prefixReplaced env title fU then SYSTEM_ROOT_LENGTH else 0) / sizeof_WCHAR)
          ((remainingTitle env title fU).map (substitute fS) ++ [0]) := by
  obtain ⟨hnew, hdir, hroot, htitle, h'⟩ := TranslateConsoleTitle_some env title fU fS t h
  have heq := TranslateConsoleTitle_eq { env with newBYTE := fun _ => true } title fU fS hnew hdir
    (fun _ => rfl) hroot htitle (prefixReplaced env title fU) rfl
  rw [heq] at h'
  have ht := (Option.some.inj h').symm
  subst ht
  have hlen := remainingTitle_length env title fU
  refine ⟨?_, rfl, rfl⟩
  simp only
  rw [hlen]
  cases hu : prefixReplaced env title fU
  · simp only [Bool.false_eq_true, if_false]
    unfold sizeof_WCHAR
    omega
  · have := prefixReplaced_le env title fU hu
    simp only [if_true]
    unfold sizeof_WCHAR
    omega

/-- The string in a returned buffer. -/
theorem TranslateConsoleTitle_some_string (env : TitleEnv) (title : List Nat) (fU fS : Bool)
    (t : TranslatedTitle) (h : TranslateConsoleTitle env title fU fS = some t) :
    t.string = (if prefixReplaced env title fU then SYSTEM_ROOT else [])
      ++ (remainingTitle env title fU).map (substitute fS) := by
  obtain ⟨hnew, hdir, hroot, htitle, h'⟩ := TranslateConsoleTitle_some env title fU fS t h
  have hs : translatedString { env with newBYTE := fun _ => true } title fU fS = some t.string := by
    unfold translatedString
    rw [h']
    rfl
  cases hu : prefixReplaced env title fU
  · rw [translatedString_keep { env with newBYTE := fun _ => true } title fU fS hnew hdir
      (fun _ => rfl) hroot htitle hu] at hs
    rw [← Option.some.inj hs]
    simp [remainingTitle, hu]
  · rw [translatedString_unexpand { env with newBYTE := fun _ => true } title fU fS hnew hdir
      (fun _ => rfl) hroot htitle hu] at hs
    rw [← Option.some.inj hs]
    simp [remainingTitle, hu]

/-- C13: whenever `TranslateConsoleTitle` allocates its buffer and returns it
(for every title, both flags and every system root), the buffer has exactly
(the bytes of `%SystemRoot%` if the prefix is replaced, otherwise 0) + (the
bytes of the part of the title that is copied) + one terminator code unit, and
it has that size before the first store. The stores are those of the bounded
copy of the token, of which there is at least one also when the prefix is not
replaced, followed by those of the loop: one per code unit copied and a last
one, the terminator, in the final code unit of the buffer. Every store is
inside the buffer; the stores do not change its size, and the string in it
together with its terminator fills it. -/
theorem translateTitle_buffer_exact (env : TitleEnv) (title : List Nat)
    (fUnexpand fSubstitute : Bool) (t : TranslatedTitle)
    (h : TranslateConsoleTitle env title fUnexpand fSubstitute = some t) :
    t.cbTranslatedConsoleTitle
        = (if prefixReplaced env title fUnexpand then (wstr "%SystemRoot%").length * sizeof_WCHAR
            else 0)
          + (remainingTitle env title fUnexpand).length * sizeof_WCHAR + sizeof_WCHAR ∧
      t.initial.length * sizeof_WCHAR = t.cbTranslatedConsoleTitle ∧
      (∃ loopStores : List Store,
        t.stores = StringCbCopy t.cbTranslatedConsoleTitle SYSTEM_ROOT ++ loopStores ∧
        StringCbCopy t.cbTranslatedConsoleTitle SYSTEM_ROOT ≠ [] ∧
        loopStores.length = (remainingTitle env title fUnexpand).length + 1 ∧
        loopStores.getLast? = some ⟨t.cbTranslatedConsoleTitle / sizeof_WCHAR - 1, 0⟩) ∧
      (∀ s ∈ t.stores, s.index < t.cbTranslatedConsoleTitle / sizeof_WCHAR) ∧
      t.buffer.length * sizeof_WCHAR = t.cbTranslatedConsoleTitle ∧
      (t.string.length + 1) * sizeof_WCHAR = t.cbTranslatedConsoleTitle := by
  obtain ⟨-, -, -, htitle, -⟩ := TranslateConsoleTitle_some env title fUnexpand fSubstitute t h
  obtain ⟨hcb, hinit, hstores⟩ :=
    TranslateConsoleTitle_some_eq env title fUnexpand fSubstitute t h
  have hstr := TranslateConsoleTitle_some_string env title fUnexpand fSubstitute t h
  have hmax : STRSAFE_MAX_CCH / sizeof_WCHAR = 1073741823 := by decide
  rw [hmax] at htitle
  have hrem := remainingTitle_length env title fUnexpand
  -- the capacity in code units, and the place where the loop starts
  obtain ⟨q, hq, hq12, hsr⟩ : ∃ q : Nat,
      (if prefixReplaced env title fUnexpand then SYSTEM_ROOT_LENGTH else 0) = q * sizeof_WCHAR ∧
      q ≤ 12 ∧
      (if prefixReplaced env title fUnexpand then SYSTEM_ROOT else []).length = q := by
    cases prefixReplaced env title fUnexpand
    · exact ⟨0, by simp, by omega, by simp⟩
    · exact ⟨12, by decide, by omega, by decide⟩
  have hcch : t.cbTranslatedConsoleTitle / sizeof_WCHAR
      = q + (remainingTitle env title fUnexpand).length + 1 := by
    rw [hcb, hq]
    unfold sizeof_WCHAR
    omega
  have hcb2 : t.cbTranslatedConsoleTitle
      = (q + (remainingTitle env title fUnexpand).length + 1) * sizeof_WCHAR := by
    rw [hcb, hq]
    unfold sizeof_WCHAR
    omega
  have hqdiv : (if prefixReplaced env title fUnexpand then SYSTEM_ROOT_LENGTH else 0)
      / sizeof_WCHAR = q := by
    rw [hq]
    exact Nat.mul_div_cancel q (by decide)
  have hilen : t.initial.length = q + (remainingTitle env title fUnexpand).length + 1 := by
    rw [hinit, List.length_map, List.length_range, hcch]
  refine ⟨?_, ?_, ?_, ?_, ?_, ?_⟩
  · rw [hcb]
    cases prefixReplaced env title fUnexpand
    · rfl
    · have : (wstr "%SystemRoot%").length * sizeof_WCHAR = SYSTEM_ROOT_LENGTH := by decide
      simp only [if_true, this]
  · rw [hilen, ← hcb2]
  · refine ⟨_, hstores, ?_, ?_, ?_⟩
    · exact StringCbCopy_ne_nil _ _ (by rw [hcch]; omega)
        (by rw [hcch]; unfold STRSAFE_MAX_CCH; omega)
    · rw [storesAt_length, List.length_append, List.length_map]
      rfl
    · rw [storesAt_getLast, hqdiv, hcch, List.length_map]
      rfl
  · intro s hs
    rw [hstores] at hs
    rcases List.mem_append.mp hs with hs | hs
    · exact StringCbCopy_index _ _ s hs
    · have := (storesAt_index _ _ s hs).2
      rw [hqdiv, List.length_append, List.length_map] at this
      rw [hcch]
      simpa [Nat.add_assoc] using this
  · unfold TranslatedTitle.buffer
    rw [applyStores_length, hilen, ← hcb2]
  · rw [hstr, List.length_append, List.length_map, hsr, ← hcb2]

set_option maxRecDepth 100000 in
/-- The title "C:" with `fUnexpand` false: a buffer of six bytes; the copy of
the token stores `%`, `S`, `y` and a terminator over the `y`, the loop stores
`C`, `:` and the terminator in the third and last code unit. -/
theorem translateTitle_buffer_exact_witness :
    TranslateConsoleTitle (envWithRoot windowsRoot) (wstr "C:") false true = some shortTranslated ∧
      shortTranslated.cbTranslatedConsoleTitle = 0 + 2 * 2 + 2 ∧
      (∀ s ∈ shortTranslated.stores, s.index < shortTranslated.cbTranslatedConsoleTitle / 2) ∧
      (shortTranslated.string.length + 1) * 2 = shortTranslated.cbTranslatedConsoleTitle :=
  ⟨by decide,
    (translateTitle_buffer_exact (envWithRoot windowsRoot) (wstr "C:") false true shortTranslated
      (by decide)).1.trans (by decide),
    (translateTitle_buffer_exact (envWithRoot windowsRoot) (wstr "C:") false true shortTranslated
      (by decide)).2.2.2.1,
    (translateTitle_buffer_exact (envWithRoot windowsRoot) (wstr "C:") false true shortTranslated
      (by decide)).2.2.2.2.2⟩

end Srvinit
